import Mathlib

/-! A shallow embedding of the shape inference engine implemented in
`src/torch_glow/src/ShapeInferenceEngine.cpp`, together with theorems about
its per-operator shape functions, its dispatcher, and its recursive graph
walker.  Line numbers in doc comments refer to that file. -/

namespace glow

/-- Outcome channel of the engine.  `err` models a recoverable typed
`glow::Error` (produced by `MAKE_ERR` / `RETURN_ERR_IF_NOT`); `fault` models
non-recoverable events: failed `CHECK`/`CHECK_EQ` macros, out-of-range
`std::vector` indexing (undefined behaviour in the C++), and the exception
thrown by `at::maybe_wrap_dim` on an out-of-range dimension. -/
inductive ShapeErr : Type where
  | err (msg : String) : ShapeErr
  | fault (msg : String) : ShapeErr
  deriving DecidableEq, Repr

abbrev TensorShape := List Int

abbrev TensorListShape := List (List Int)

/-- One entry of `VariableMeta.listOfShape`: the C++ stores a variant that is
either a `TensorShape` or a `TensorListShape`. -/
inductive ElemShape : Type where
  | tensor (s : TensorShape) : ElemShape
  | tensorList (ls : TensorListShape) : ElemShape
  deriving DecidableEq, Repr

/-- `VariableMeta`: the per-Value record (list of shape entries plus an
integer payload).  The `dtype` field is omitted: it never influences any
computed shape. -/
structure VariableMeta : Type where
  listOfShape : List ElemShape := []
  intValue : List Int := []
  deriving DecidableEq, Repr

instance : Inhabited VariableMeta := ⟨{}⟩

abbrev MetaStack := List VariableMeta

/-- `v.shape<TensorShape>()`: reads `listOfShape[0]` as a `TensorShape`.
An empty entry list or a wrong variant is an out-of-range access or a bad
variant access in the C++, modelled as a `fault`. -/
def VariableMeta.shapeT (v : VariableMeta) : Except ShapeErr TensorShape :=
  match v.listOfShape with
  | ElemShape.tensor s :: _ => Except.ok s
  | _ => Except.error (ShapeErr.fault "bad variant access in shape<TensorShape>()")

/-- `std::vector` indexing `v[i]`: an index outside `[0, size)` is undefined
behaviour in the C++, modelled as a `fault`. -/
def vecGetI (v : List Int) (i : Int) : Except ShapeErr Int :=
  if h : 0 ≤ i ∧ i.toNat < v.length then Except.ok (v.get ⟨i.toNat, h.2⟩)
  else Except.error (ShapeErr.fault "std::vector index out of range")

/-- `at::maybe_wrap_dim(dim, rank)` with scalar wrapping: writing `m` for
`max rank 1`, the valid range is `[-m, m)`; negative dims get `m` added;
anything outside throws, modelled as a `fault`. -/
def maybeWrapDim (dim : Int) (rank : Nat) : Except ShapeErr Int :=
  if -(max (rank : Int) 1) ≤ dim ∧ dim < max (rank : Int) 1 then
    Except.ok (if dim < 0 then dim + max (rank : Int) 1 else dim)
  else Except.error (ShapeErr.fault "maybe_wrap_dim: dimension out of range")

/-- The size-mismatch message of `binaryOp` (lines 413-416), including its
missing space before "at". -/
def sizeMismatchMsg (a b : Int) : String :=
  "The size of tensor a (" ++ toString a ++ ") must match the size of tensor b ("
    ++ toString b ++ ")at non-singleton dimension 1."

/-- The broadcasting loop of `binaryOp` (lines 405-421), translated to
structural recursion on the two shapes reversed: loop iteration `i` inspects
`t0[d0-1-i]` and `t1[d1-1-i]`, i.e. position `i` of the reversed shapes, and
writes `shape[dim-1-i]`; the loop stops early at the first error.  Once
`t0` is exhausted (`i >= d0`) every remaining iteration copies `t1`'s entry
unconditionally (no error or read of `t0` is possible there), collapsed
into the first arm.  When `t0`'s entry is `1` and `t1` is exhausted
(`i >= d1`), the C++ branch `t0[d0+j] == 1` reads `t1[d1+j]` with a
negative (size_t-wrapped) index, an out-of-range access, hence the
`fault`. -/
def binaryOpRev : List Int → List Int → Except ShapeErr (List Int)
  | [], bs => Except.ok bs
  | a :: as, [] =>
    if a = 1 then Except.error (ShapeErr.fault "std::vector index out of range")
    else (binaryOpRev as []).map (a :: ·)
  | a :: as, b :: bs =>
    if a = 1 then (binaryOpRev as bs).map (b :: ·)
    else if b = 1 then (binaryOpRev as bs).map (a :: ·)
    else if b ≠ a then Except.error (ShapeErr.err (sizeMismatchMsg a b))
    else (binaryOpRev as bs).map (b :: ·)

/-- `ShapeInferenceEngine::binaryOp` (lines 384-423), shared by
`aten::add/sub/mul/pow`. -/
def binaryOp (variableMetas : MetaStack) : Except ShapeErr TensorShape :=
  if variableMetas.length ≠ 2 ∧ variableMetas.length ≠ 3 then
    Except.error (ShapeErr.err "Expected two or three inputs shapes of this operation.")
  else
    match (variableMetas.getD 0 default).shapeT, (variableMetas.getD 1 default).shapeT with
    | Except.error e, _ => Except.error e
    | _, Except.error e => Except.error e
    | Except.ok t0, Except.ok t1 =>
      if t1.length = 1 then Except.ok t0
      else (binaryOpRev t0.reverse t1.reverse).map List.reverse

/-- `ShapeInferenceEngine::mm` (lines 429-450). -/
def mm (variableMetas : MetaStack) : Except ShapeErr TensorShape :=
  if variableMetas.length ≠ 2 then
    Except.error (ShapeErr.err "Expected two inputs shapes of this operation.")
  else
    match (variableMetas.getD 0 default).shapeT, (variableMetas.getD 1 default).shapeT with
    | Except.error e, _ => Except.error e
    | _, Except.error e => Except.error e
    | Except.ok t0, Except.ok t1 =>
      if ¬(t1.length = 2 ∧ t0.length = 2) then
        Except.error (ShapeErr.err "Expected 2-dimensional tensor.")
      else if t0.getD 1 0 ≠ t1.getD 0 0 then
        Except.error (ShapeErr.err ("The size of tensor a (" ++ toString (t0.getD 1 0)
          ++ ") at dimension 1 must match the size of tensor b (" ++ toString (t1.getD 0 0)
          ++ ") at dimension 0."))
      else Except.ok [t0.getD 0 0, t1.getD 1 0]

/-- `ShapeInferenceEngine::transpose` (lines 545-569): wraps both axes with
`at::maybe_wrap_dim` and swaps the two extents (`std::swap(shape[dim0],
shape[dim1])`, whose two element accesses are modelled by `vecGetI`). -/
def transpose (variableMetas : MetaStack) : Except ShapeErr TensorShape :=
  if variableMetas.length ≠ 3 then
    Except.error (ShapeErr.err ("Expect 3 inputs, get " ++ toString variableMetas.length))
  else if (variableMetas.getD 1 default).intValue.length ≠ 1 then
    Except.error (ShapeErr.err "Expect 1 int dimension")
  else if (variableMetas.getD 2 default).intValue.length ≠ 1 then
    Except.error (ShapeErr.err "Expect 1 int dimension")
  else
    match (variableMetas.getD 0 default).shapeT with
    | Except.error e => Except.error e
    | Except.ok shape =>
      match maybeWrapDim ((variableMetas.getD 1 default).intValue.getD 0 0) shape.length with
      | Except.error e => Except.error e
      | Except.ok dim0 =>
        match maybeWrapDim ((variableMetas.getD 2 default).intValue.getD 0 0) shape.length with
        | Except.error e => Except.error e
        | Except.ok dim1 =>
          match vecGetI shape dim0, vecGetI shape dim1 with
          | Except.error e, _ => Except.error e
          | _, Except.error e => Except.error e
          | Except.ok v0, Except.ok v1 =>
            Except.ok ((shape.set dim0.toNat v1).set dim1.toNat v0)

/-- The start clamp of `slice` (lines 766-771): `start <= -extent` zeroes,
strictly negative in-range starts wrap, anything else is kept. -/
def clampStart (e start : Int) : Int :=
  if start ≤ -e then 0
  else if -e < start ∧ start < 0 then start + e
  else start

/-- The end clamp of `slice` (lines 773-778): `end > extent` clamps to the
extent, strictly negative in-range ends wrap, anything else is kept. -/
def clampStop (e stop : Int) : Int :=
  if stop > e then e
  else if -e < stop ∧ stop < 0 then stop + e
  else stop

/-- `ShapeInferenceEngine::slice` (lines 740-790).  Note that the `dim`
input is used without wrapping or range check: `shape[dim]` with `dim`
outside `[0, rank)` is an out-of-range access.  The C++ local `end` is
renamed `stop` here (`end` is a Lean keyword). -/
def slice (variableMetas : MetaStack) : Except ShapeErr TensorShape :=
  if variableMetas.length ≠ 5 then
    Except.error (ShapeErr.err ("Expected 5 inputs, got " ++ toString variableMetas.length ++ "."))
  else if ((variableMetas.getD 1 default).intValue.length ≠ 1) ∨
      ((variableMetas.getD 2 default).intValue.length ≠ 1) ∨
      ((variableMetas.getD 3 default).intValue.length ≠ 1) ∨
      ((variableMetas.getD 4 default).intValue.length ≠ 1) then
    Except.error (ShapeErr.err "Expected int in Slice.")
  else
    let dim := (variableMetas.getD 1 default).intValue.getD 0 0
    let start := (variableMetas.getD 2 default).intValue.getD 0 0
    let stop := (variableMetas.getD 3 default).intValue.getD 0 0
    let step := (variableMetas.getD 4 default).intValue.getD 0 0
    match (variableMetas.getD 0 default).shapeT with
    | Except.error e => Except.error e
    | Except.ok shape =>
      match vecGetI shape dim with
      | Except.error e => Except.error e
      | Except.ok inDims =>
        if start ≥ inDims ∨ stop ≤ -inDims then Except.ok (shape.set dim.toNat 0)
        else
          let start1 := clampStart inDims start
          let stop1 := clampStop inDims stop
          if start1 ≥ stop1 then Except.ok (shape.set dim.toNat 0)
          else
            let q := Int.tdiv (stop1 - start1) step
            let ext := if Int.tmod (stop1 - start1) step ≠ 0 then q + 1 else q
            Except.ok (shape.set dim.toNat ext)

/-- The accumulation loop of `reshape` (lines 814-823): multiplies every
target entry into `s1` and records the index of the first `-1`; a second
`-1` is an immediate error. -/
def reshapeScan : List Int → Nat → Int → Int → Except ShapeErr (Int × Int)
  | [], _, s1, negIndex => Except.ok (s1, negIndex)
  | v :: rest, i, s1, negIndex =>
    if v = -1 then
      if negIndex = -1 then reshapeScan rest (i + 1) (s1 * v) (i : Int)
      else Except.error (ShapeErr.err "Unable to infer undetermined dimension")
    else reshapeScan rest (i + 1) (s1 * v) negIndex

/-- `ShapeInferenceEngine::reshape` (lines 796-833).  `s1` accumulates the
product of all target entries including the `-1`, and the C++ `%` and `/`
(truncating semantics) are `Int.tmod` and `Int.tdiv`. -/
def reshape (variableMetas : MetaStack) : Except ShapeErr TensorShape :=
  if variableMetas.length ≠ 2 then
    Except.error (ShapeErr.err ("Expected two inputs shapes, got " ++ toString variableMetas.length ++ "."))
  else
    match (variableMetas.getD 0 default).shapeT with
    | Except.error e => Except.error e
    | Except.ok t =>
      let s0 := t.foldl (· * ·) 1
      let targ := (variableMetas.getD 1 default).intValue
      match reshapeScan targ 0 1 (-1) with
      | Except.error e => Except.error e
      | Except.ok (s1, negIndex) =>
        if Int.tmod s0 s1 ≠ 0 then
          Except.error (ShapeErr.err "Reshape size is invalid for input size.")
        else if negIndex ≠ -1 then
          Except.ok (targ.set negIndex.toNat (Int.tdiv (-s0) s1))
        else Except.ok targ

/-- The chunk-building loop shared by `constantChunk` and `chunk`
(lines 687-693 and 1022-1027): chunk `i` gets extent `r` if it is the last
one (`i == chunks - 1`), else `c`. -/
def chunkShapes (t : TensorShape) (d : Nat) (c r : Int) (chunks : Int) : TensorListShape :=
  (List.range chunks.toNat).map fun (i : Nat) =>
    t.set d (if (i : Int) = chunks - 1 then r else c)

/-- `ShapeInferenceEngine::constantChunk` (lines 668-695). -/
def constantChunk (variableMetas : MetaStack) (chunks dim : Int) : Except ShapeErr TensorListShape :=
  if variableMetas.length ≠ 1 then
    Except.error (ShapeErr.err ("Expected one input, got " ++ toString variableMetas.length ++ "."))
  else
    match (variableMetas.getD 0 default).shapeT with
    | Except.error e => Except.error e
    | Except.ok t =>
      match maybeWrapDim dim t.length with
      | Except.error e => Except.error e
      | Except.ok d =>
        match vecGetI t d with
        | Except.error e => Except.error e
        | Except.ok e0 =>
          let c := Int.tdiv (e0 + chunks - 1) chunks
          let r := e0 - c * (chunks - 1)
          Except.ok (chunkShapes t d.toNat c r chunks)

/-- `ShapeInferenceEngine::chunk` (lines 1001-1029): the same splitting
arithmetic with the chunk count and axis taken from runtime integer
payloads.  Its arity message really says "Expected one input" in the C++,
and the `intValue[0]` accesses are unchecked (`vecGetI`). -/
def chunk (variableMetas : MetaStack) : Except ShapeErr TensorListShape :=
  if variableMetas.length ≠ 3 then
    Except.error (ShapeErr.err ("Expected one input, got " ++ toString variableMetas.length ++ "."))
  else
    match (variableMetas.getD 0 default).shapeT with
    | Except.error e => Except.error e
    | Except.ok t =>
      match vecGetI (variableMetas.getD 1 default).intValue 0,
            vecGetI (variableMetas.getD 2 default).intValue 0 with
      | Except.error e, _ => Except.error e
      | _, Except.error e => Except.error e
      | Except.ok chunks, Except.ok dim =>
        match maybeWrapDim dim t.length with
        | Except.error e => Except.error e
        | Except.ok d =>
          match vecGetI t d with
          | Except.error e => Except.error e
          | Except.ok e0 =>
            let c := Int.tdiv (e0 + chunks - 1) chunks
            let r := e0 - c * (chunks - 1)
            Except.ok (chunkShapes t d.toNat c r chunks)

/-- Declared output type of a `prim::Constant` node, as classified by
`primConstant` (lines 353-376).  `cother` covers every type that is none of
float/int/bool/None/tensor (e.g. a string constant). -/
inductive ConstType : Type where
  | cfloat : ConstType
  | cint (value : Int) : ConstType
  | cbool (value : Int) : ConstType
  | cnone : ConstType
  | ctensor (dims : TensorShape) : ConstType
  | cother : ConstType
  deriving DecidableEq, Repr

/-- Whether the declared output type `isSubtypeOf(at::TensorType::get())`. -/
def ConstType.isTensor : ConstType → Bool
  | ConstType.ctensor _ => true
  | _ => false

/-- `ShapeInferenceEngine::primConstant` (lines 353-376).  A type that
matches none of the five tested cases falls through every branch and the
default-initialised empty `shapeOrValue` is returned; the function never
fails. -/
def primConstant : ConstType → TensorShape
  | ConstType.cfloat => [1]
  | ConstType.cint v => [v]
  | ConstType.cbool v => [v]
  | ConstType.cnone => []
  | ConstType.ctensor dims => dims
  | ConstType.cother => []

/-- Operator kinds dispatched by `shapeOnNode` that this development embeds;
`other` models the default branch of the kind switch (unsupported
operator). -/
inductive OpKind : Type where
  | constant (c : ConstType) : OpKind
  | relu : OpKind
  | add : OpKind
  | sub : OpKind
  | mul : OpKind
  | pow : OpKind
  | mm : OpKind
  | transpose : OpKind
  | slice : OpKind
  | reshape : OpKind
  | constantChunk (chunks dim : Int) : OpKind
  | chunk : OpKind
  | other (name : String) : OpKind
  deriving DecidableEq, Repr

/-- The operator switch of `shapeOnNode` (lines 56-169) restricted to the
embedded kinds: computes the `outputShapesOrValues` vector. -/
def dispatchOp (kind : OpKind) (inputMetas : MetaStack) : Except ShapeErr TensorListShape :=
  match kind with
  | OpKind.constant c => Except.ok [primConstant c]
  | OpKind.relu =>
    if inputMetas.length ≠ 1 then
      Except.error (ShapeErr.err "Expected 1 input shape for operators.")
    else ((inputMetas.getD 0 default).shapeT).map (fun s => [s])
  | OpKind.add => (binaryOp inputMetas).map (fun s => [s])
  | OpKind.sub => (binaryOp inputMetas).map (fun s => [s])
  | OpKind.mul => (binaryOp inputMetas).map (fun s => [s])
  | OpKind.pow => (binaryOp inputMetas).map (fun s => [s])
  | OpKind.mm => (mm inputMetas).map (fun s => [s])
  | OpKind.transpose => (transpose inputMetas).map (fun s => [s])
  | OpKind.slice => (slice inputMetas).map (fun s => [s])
  | OpKind.reshape => (reshape inputMetas).map (fun s => [s])
  | OpKind.constantChunk chunks dim => constantChunk inputMetas chunks dim
  | OpKind.chunk => chunk inputMetas
  | OpKind.other nm =>
    Except.error (ShapeErr.err ("Node's operator " ++ nm ++ " is not supported"))

/-- The engine's `shapeMap_`, keyed by Value identity.  Following the
spec's arena design note, each Value is modelled by a stable `Nat` id;
distinct C++ `Value*` pointers are distinct ids. -/
abbrev ShapeMap := List (Nat × VariableMeta)

def mapFind : ShapeMap → Nat → Option VariableMeta
  | [], _ => none
  | (k0, v) :: rest, k => if k0 = k then some v else mapFind rest k

/-- `shapeMap_[k] = v` (`std::unordered_map::operator[]` plus assignment):
overwrites an existing entry or inserts a new one. -/
def mapSet : ShapeMap → Nat → VariableMeta → ShapeMap
  | [], k, v => [(k, v)]
  | (k0, v0) :: rest, k, v =>
    if k0 = k then (k, v) :: rest else (k0, v0) :: mapSet rest k v

def mapGetD (m : ShapeMap) (k : Nat) : VariableMeta := (mapFind m k).getD default

/-- `shapeMap_[k].listOfShape.emplace_back(s)`: default-constructs the
record if absent, then appends one shape entry. -/
def emplaceShape (m : ShapeMap) (k : Nat) (s : ElemShape) : ShapeMap :=
  let cur := mapGetD m k
  mapSet m k { cur with listOfShape := cur.listOfShape ++ [s] }

/-- `shapeMap_[k].intValue = iv`. -/
def setIntValue (m : ShapeMap) (k : Nat) (iv : List Int) : ShapeMap :=
  let cur := mapGetD m k
  mapSet m k { cur with intValue := iv }

/-- `ShapeInferenceEngine::getNodeInputShape` (lines 22-29); a missing input
record fails the `CHECK` (a topological-order violation). -/
def getNodeInputShape (m : ShapeMap) : List Nat → Except ShapeErr MetaStack
  | [] => Except.ok []
  | i :: rest =>
    match mapFind m i with
    | none => Except.error (ShapeErr.fault "CHECK(it != shapeMap_.end()) failed in getNodeInputShape")
    | some v => (getNodeInputShape m rest).map (v :: ·)

/-- Default result packaging (lines 216-219): positional one-to-one between
node outputs and `outputShapesOrValues`; an output index beyond the result
vector is an out-of-range access. -/
def packDefault : ShapeMap → List Nat → TensorListShape → Except ShapeErr ShapeMap
  | m, [], _ => Except.ok m
  | _, _ :: _, [] => Except.error (ShapeErr.fault "outputShapesOrValues index out of range")
  | m, o :: outs, s :: res => packDefault (emplaceShape m o (ElemShape.tensor s)) outs res

/-- `ShapeInferenceEngine::shapeOnNode` (lines 40-222) for the embedded
kinds: resolve input records, dispatch, then package results
(constant-producing and chunk-style kinds are special-cased,
lines 187-194 and 212-215). -/
def shapeOnNode (m : ShapeMap) (kind : OpKind) (ins outs : List Nat) :
    Except ShapeErr ShapeMap :=
  match getNodeInputShape m ins with
  | Except.error e => Except.error e
  | Except.ok inputMetas =>
    match dispatchOp kind inputMetas with
    | Except.error e => Except.error e
    | Except.ok res =>
      match kind with
      | OpKind.constant c =>
        match outs with
        | [] => Except.error (ShapeErr.fault "node->output() on a node without outputs")
        | o :: _ =>
          if c.isTensor then Except.ok (emplaceShape m o (ElemShape.tensor (res.getD 0 [])))
          else Except.ok (setIntValue (emplaceShape m o (ElemShape.tensor [1])) o (res.getD 0 []))
      | OpKind.chunk =>
        match outs with
        | [] => Except.error (ShapeErr.fault "node->output() on a node without outputs")
        | o :: _ => Except.ok (emplaceShape m o (ElemShape.tensorList res))
      | _ => packDefault m outs res

/-- Example input values (`torch::jit::IValue`) as classified by
`getGraphInputShape`; `unsupported` stands for any other kind. -/
inductive IValue : Type where
  | tensor (dims : TensorShape) : IValue
  | boolVal (b : Bool) : IValue
  | intVal (v : Int) : IValue
  | intList (l : List Int) : IValue
  | unsupported : IValue
  deriving DecidableEq, Repr

/-- Classification of one example input (lines 317-330): the shape entry
and the integer payload stored for it. -/
def seedOne : IValue → Except ShapeErr (TensorShape × List Int)
  | IValue.tensor dims => Except.ok (dims, [])
  | IValue.boolVal b => Except.ok ([1], [if b then 1 else 0])
  | IValue.intVal v => Except.ok ([1], [v])
  | IValue.intList l => Except.ok ([(l.length : Int), 1], l)
  | IValue.unsupported => Except.error (ShapeErr.err "Input type doesn't support yet.")

/-- `ShapeInferenceEngine::getGraphInputShape` (lines 308-335): pairs graph
input Values with example values in order; `graph.inputs()[i]` past the end
of the graph's input list is an out-of-range access. -/
def getGraphInputShape : ShapeMap → List Nat → List IValue → Except ShapeErr ShapeMap
  | m, _, [] => Except.ok m
  | _, [], _ :: _ => Except.error (ShapeErr.fault "graph.inputs() index out of range")
  | m, g :: gs, v :: vs =>
    match seedOne v with
    | Except.error e => Except.error e
    | Except.ok (s, iv) =>
      getGraphInputShape (setIntValue (emplaceShape m g (ElemShape.tensor s)) g iv) gs vs

/-- A graph node: either a plain operator node, or a fusion node carrying a
nested subgraph (the subgraph's input/output Values and node list are
inlined in the constructor). -/
inductive GNode : Type where
  | op (kind : OpKind) (ins outs : List Nat) : GNode
  | fusion (ins outs subIns subOuts : List Nat) (subNodes : List GNode) : GNode

structure Graph : Type where
  ins : List Nat
  outs : List Nat
  nodes : List GNode

/-- Materialisation of subgraph example inputs (lines 239-248): each outer
input Value's record becomes an empty tensor of the recorded shape. -/
def materialize (m : ShapeMap) : List Nat → Except ShapeErr (List IValue)
  | [] => Except.ok []
  | i :: rest =>
    match mapFind m i with
    | none => Except.error (ShapeErr.fault "CHECK(it != shapeMap_.end()) failed in runRecursively")
    | some v =>
      match v.shapeT with
      | Except.error e => Except.error e
      | Except.ok s => (materialize m rest).map (IValue.tensor s :: ·)

/-- The copy-back loop (lines 256-258):
`shapeMap_[node->outputs()[i]] = shapeMap_[subgraph->outputs()[i]]`.
The right-hand `operator[]` inserts a default record when absent. -/
def copyOuts : ShapeMap → List Nat → List Nat → ShapeMap
  | m, s :: ss, o :: os =>
    let m1 := if (mapFind m s).isSome then m else mapSet m s default
    copyOuts (mapSet m1 o (mapGetD m1 s)) ss os
  | m, _, _ => m

mutual

/-- The node loop of `runRecursively` (lines 231-262). -/
def runNodes : ShapeMap → List GNode → Except ShapeErr ShapeMap
  | m, [] => Except.ok m
  | m, n :: rest =>
    match runNode m n with
    | Except.error e => Except.error e
    | Except.ok m1 => runNodes m1 rest

/-- One node visit: fusion nodes recurse into their subgraph (materialise
inputs, seed the shared map, walk the subgraph nodes, `CHECK_EQ` the output
counts, copy output records back); all other nodes go to `shapeOnNode`. -/
def runNode : ShapeMap → GNode → Except ShapeErr ShapeMap
  | m, GNode.op kind ins outs => shapeOnNode m kind ins outs
  | m, GNode.fusion ins outs _subIns subOuts subNodes =>
    match materialize m ins with
    | Except.error e => Except.error e
    | Except.ok ivals =>
      match getGraphInputShape m _subIns ivals with
      | Except.error e => Except.error e
      | Except.ok m1 =>
        match runNodes m1 subNodes with
        | Except.error e => Except.error e
        | Except.ok m2 =>
          if subOuts.length ≠ outs.length then
            Except.error
              (ShapeErr.fault "CHECK_EQ(subgraph->outputs().size(), node->outputs().size()) failed")
          else Except.ok (copyOuts m2 subOuts outs)

end

/-- `generateGraphOutputShape` (lines 337-343). -/
def genOutputs (m : ShapeMap) : List Nat → Except ShapeErr MetaStack
  | [] => Except.ok []
  | o :: rest =>
    match mapFind m o with
    | none =>
      Except.error (ShapeErr.fault "CHECK(it != shapeMap_.end()) failed in generateGraphOutputShape")
    | some v => (genOutputs m rest).map (v :: ·)

/-- `runRecursively` at graph level (lines 224-264): seed the inputs, then
walk the nodes. -/
def runGraph (m : ShapeMap) (g : Graph) (inputs : List IValue) : Except ShapeErr ShapeMap :=
  match getGraphInputShape m g.ins inputs with
  | Except.error e => Except.error e
  | Except.ok m1 => runNodes m1 g.nodes

/-- `ShapeInferenceEngine::run` (lines 266-277): top-level arity check,
recursive walk, output extraction.  Returns the final value map and the
ordered graph-output records. -/
def run (g : Graph) (inputs : List IValue) : Except ShapeErr (ShapeMap × MetaStack) :=
  if inputs.length ≠ g.ins.length then
    Except.error (ShapeErr.err "Number of inputs mismatch between Graph and actual inputs")
  else
    match runGraph [] g inputs with
    | Except.error e => Except.error e
    | Except.ok m =>
      match genOutputs m g.outs with
      | Except.error e => Except.error e
      | Except.ok outs => Except.ok (m, outs)

/-- Record holding a single tensor shape entry, as input seeding produces
for a tensor example value. -/
def mkT (s : TensorShape) : VariableMeta :=
  { listOfShape := [ElemShape.tensor s], intValue := [] }

/-- Record carrying one integer payload with the placeholder shape `[1]`,
as input seeding produces for an int scalar. -/
def intM (v : Int) : VariableMeta :=
  { listOfShape := [ElemShape.tensor [1]], intValue := [v] }

/-- Record carrying an integer-list payload with the placeholder shape
`[len, 1]`, as input seeding and list-construct packaging produce. -/
def intsM (l : List Int) : VariableMeta :=
  { listOfShape := [ElemShape.tensor [(l.length : Int), 1]], intValue := l }

/-- Standard trailing-alignment broadcasting on reversed shapes, written
from the specification (section 4.5) for comparison with `binaryOpRev`:
an exhausted side or an extent 1 yields the other side's extent, equal
extents stand, anything else is incompatible. -/
def broadcastSpecRev : List Int → List Int → Option (List Int)
  | [], ys => some ys
  | xs, [] => some xs
  | x :: xs, y :: ys =>
    if x = 1 then (broadcastSpecRev xs ys).map (y :: ·)
    else if y = 1 then (broadcastSpecRev xs ys).map (x :: ·)
    else if x = y then (broadcastSpecRev xs ys).map (x :: ·)
    else none

/-- The standard trailing-dimension broadcast shape of the specification. -/
def broadcastSpec (a b : List Int) : Option (List Int) :=
  (broadcastSpecRev a.reverse b.reverse).map List.reverse

/-- On reversed shapes: does some position have extent `1` in the first
shape while the second shape is exhausted?  Exactly at these positions the
C++ broadcasting loop indexes `t1` out of range. -/
def overhangOne : List Int → List Int → Bool
  | [], _ => false
  | a :: as, [] => decide (a = 1) || overhangOne as []
  | _ :: as, _ :: bs => overhangOne as bs

/-- On reversed shapes: does some position have both extents present,
different, and neither equal to `1`? -/
def hasMismatch : List Int → List Int → Bool
  | a :: as, b :: bs =>
    (decide (a ≠ 1) && decide (b ≠ 1) && decide (a ≠ b)) || hasMismatch as bs
  | _, _ => false

/-- Mathematical ceiling division `⌈a / b⌉` (exact for every `b ≠ 0`). -/
def ceilDiv (a b : Int) : Int := -(Int.fdiv (-a) b)

/-- The slice output extent as the specification states it (section 4.5):
zero-out and clamp rules, then the ceiling of `(end - start) / step`.
Written from the specification for comparison with `slice`. -/
def sliceExtentSpec (e start stop step : Int) : Int :=
  if start ≥ e ∨ stop ≤ -e then 0
  else if clampStart e start ≥ clampStop e stop then 0
  else ceilDiv (clampStop e stop - clampStart e start) step

/-- Exchange of the entries at positions `i` and `j` (the effect of
`std::swap(shape[i], shape[j])` for in-range indices). -/
def swapAt (l : List Int) (i j : Nat) : List Int :=
  (l.set i (l.getD j 0)).set j (l.getD i 0)

theorem mapFind_mapSet_self (m : ShapeMap) (k : Nat) (v : VariableMeta) :
    mapFind (mapSet m k v) k = some v := by
  induction m with
  | nil => simp [mapSet, mapFind]
  | cons hd tl ih =>
    obtain ⟨k0, v0⟩ := hd
    by_cases h : k0 = k
    · subst h; simp [mapSet, mapFind]
    · simp [mapSet, mapFind, h, ih]

theorem mapFind_mapSet_ne (m : ShapeMap) (k k2 : Nat) (v : VariableMeta)
    (h : k ≠ k2) : mapFind (mapSet m k v) k2 = mapFind m k2 := by
  induction m with
  | nil => simp [mapSet, mapFind, h]
  | cons hd tl ih =>
    obtain ⟨k0, v0⟩ := hd
    by_cases h0 : k0 = k
    · subst h0
      simp [mapSet, mapFind, h]
    · simp [mapSet, mapFind, h0, ih]

theorem mapFind_emplaceShape_self (m : ShapeMap) (k : Nat) (s : ElemShape) :
    mapFind (emplaceShape m k s) k
      = some { listOfShape := (mapGetD m k).listOfShape ++ [s],
               intValue := (mapGetD m k).intValue } := by
  simp [emplaceShape, mapFind_mapSet_self]

theorem mapFind_setIntValue_self (m : ShapeMap) (k : Nat) (iv : List Int) :
    mapFind (setIntValue m k iv) k
      = some { listOfShape := (mapGetD m k).listOfShape, intValue := iv } := by
  simp [setIntValue, mapFind_mapSet_self]

theorem mapFind_emplaceShape_ne (m : ShapeMap) (k k2 : Nat) (s : ElemShape)
    (h : k ≠ k2) : mapFind (emplaceShape m k s) k2 = mapFind m k2 := by
  simp [emplaceShape, mapFind_mapSet_ne _ _ _ _ h]

theorem mapFind_setIntValue_ne (m : ShapeMap) (k k2 : Nat) (iv : List Int)
    (h : k ≠ k2) : mapFind (setIntValue m k iv) k2 = mapFind m k2 := by
  simp [setIntValue, mapFind_mapSet_ne _ _ _ _ h]

/-- C10: for a constant node whose declared output type is none of
float/int/bool/None/tensor (e.g. a string constant), the constant shape
function succeeds and returns an empty shape instead of an
unsupported-type failure, and the dispatcher's non-tensor packaging then
records the value with placeholder shape `[1]` and an empty integer
payload. -/
theorem primConstant_other_empty_shape :
    primConstant ConstType.cother = [] ∧
    ∀ (m : ShapeMap) (o : Nat),
      shapeOnNode m (OpKind.constant ConstType.cother) [] [o]
        = Except.ok (setIntValue (emplaceShape m o (ElemShape.tensor [1])) o []) ∧
      mapFind (setIntValue (emplaceShape m o (ElemShape.tensor [1])) o []) o
        = some { listOfShape := (mapGetD m o).listOfShape ++ [ElemShape.tensor [1]],
                 intValue := [] } := by
  refine ⟨rfl, fun m o => ⟨rfl, ?_⟩⟩
  rw [mapFind_setIntValue_self]
  simp [mapGetD, mapFind_emplaceShape_self]

/-- C8: the dynamic `chunk` applied to a tensor record and two records
carrying the chunk count `k` and axis `d` as integer payloads returns
exactly what `constantChunk` returns for the same tensor record with static
attributes `k` and `d`: the two implementations of the splitting arithmetic
are equal as functions. -/
theorem chunk_eq_constantChunk (T : VariableMeta) (k d : Int) :
    chunk [T, intM k, intM d] = constantChunk [T] k d := by
  cases hT : T.shapeT with
  | error e => simp [chunk, constantChunk, hT]
  | ok t => simp [chunk, constantChunk, hT, intM, vecGetI]

theorem ediv_eq_of (a b q r : Int) (hb : 0 < b) (h : r + b * q = a)
    (h0 : 0 ≤ r) (hlt : r < b) : a / b = q := by
  have h2 : a / b = q ∧ a % b = r := (Int.ediv_emod_unique hb).mpr ⟨h, h0, hlt⟩
  exact h2.1

theorem tdiv_ceil (e k : Int) (he : 0 ≤ e) (hk : 1 ≤ k) :
    Int.tdiv (e + k - 1) k = ceilDiv e k := by
  have hk0 : (0 : Int) < k := by omega
  have hfe : Int.fdiv (-e) k = (-e) / k := Int.fdiv_eq_ediv _ (by omega)
  have htd : Int.tdiv (e + k - 1) k = (e + k - 1) / k :=
    Int.tdiv_eq_ediv (by omega) (by omega)
  have hmod := Int.ediv_add_emod e k
  have hr0 : 0 ≤ e % k := Int.emod_nonneg e (by omega)
  have hrk : e % k < k := Int.emod_lt_of_pos e hk0
  rw [ceilDiv, hfe, htd]
  by_cases hcase : e % k = 0
  · have h1 : (e + k - 1) / k = e / k :=
      ediv_eq_of _ _ _ (k - 1) hk0 (by linear_combination hmod - hcase)
        (by omega) (by omega)
    have h2 : (-e) / k = -(e / k) :=
      ediv_eq_of _ _ _ 0 hk0 (by linear_combination -hmod + hcase)
        (by omega) (by omega)
    rw [h1, h2]; ring
  · have h1 : (e + k - 1) / k = e / k + 1 :=
      ediv_eq_of _ _ _ (e % k - 1) hk0 (by linear_combination hmod)
        (by omega) (by omega)
    have h2 : (-e) / k = -(e / k + 1) :=
      ediv_eq_of _ _ _ (k - e % k) hk0 (by linear_combination -hmod)
        (by omega) (by omega)
    rw [h1, h2]; ring

theorem getD_set_self (l : List Int) (i : Nat) (x : Int) (h : i < l.length) :
    (l.set i x).getD i 0 = x := by
  rw [List.getD_eq_getElem (l.set i x) 0 (by simpa using h)]
  exact List.getElem_set_self _

theorem chunkShapes_length (t : TensorShape) (d : Nat) (c r chunks : Int) :
    (chunkShapes t d c r chunks).length = chunks.toNat := by
  rw [chunkShapes, List.length_map, List.length_range]

theorem chunkShapes_getD (t : TensorShape) (d : Nat) (c r chunks : Int)
    (i : Nat) (h : i < chunks.toNat) :
    (chunkShapes t d c r chunks).getD i []
      = t.set d (if (i : Int) = chunks - 1 then r else c) := by
  have hlen : i < (chunkShapes t d c r chunks).length := by
    rw [chunkShapes_length]; exact h
  rw [List.getD_eq_getElem _ _ hlen]
  unfold chunkShapes
  rw [List.getElem_map, List.getElem_range]

theorem range_map_lastDistinct_sum (n : Nat) (c r : Int) (K : Int)
    (hK : K = (n : Int) + 1) :
    ((List.range (n + 1)).map fun (i : Nat) =>
        if (i : Int) = K - 1 then r else c).sum
      = c * (n : Int) + r := by
  rw [List.range_succ, List.map_append, List.sum_append]
  have h1 : ((List.range n).map fun (i : Nat) => if (i : Int) = K - 1 then r else c)
      = (List.range n).map fun (_ : Nat) => c := by
    apply List.map_congr_left
    intro a ha
    have ha2 : a < n := List.mem_range.mp ha
    have ha3 : ((a : Int)) ≠ K - 1 := by omega
    simp [ha3]
  rw [h1]
  have h2 : ((n : Int)) = K - 1 := by omega
  simp [h2, mul_comm]

/-- C3 counterexample: `constantChunk` on shape `[1]` with `chunks = 3`
splits as `c = 1`, last extent `1 - 1*2 = -1`, so the last chunk's extent
is negative, contradicting the claim that it never is. -/
theorem constantChunk_claim_counterexample :
    constantChunk [mkT [1]] 3 0 = Except.ok [[1], [1], [-1]] ∧ (-1 : Int) < 0 := by
  constructor
  · rfl
  · decide

/-- C3 (amended): for a tensor record with extent `e ≥ 0` at the wrapped
axis and a chunk count `k ≥ 1`, `constantChunk` returns exactly `k` shapes
identical to the input except at the wrapped axis; the first `k-1` chunks
get extent `c = ⌈e/k⌉` and the last gets `e - c*(k-1)`; the extents sum to
`e` and only the last chunk can be smaller — but the last extent can be
negative (e.g. `e = 1`, `k = 3`), contrary to the claim. -/
theorem constantChunk_amended (t : TensorShape) (chunks dim wd e : Int)
    (hw : maybeWrapDim dim t.length = Except.ok wd)
    (hv : vecGetI t wd = Except.ok e)
    (he : 0 ≤ e) (hk : 1 ≤ chunks) :
    ∃ res, constantChunk [mkT t] chunks dim = Except.ok res ∧
      res.length = chunks.toNat ∧
      (∀ i : Nat, i + 1 < chunks.toNat →
        res.getD i [] = t.set wd.toNat (ceilDiv e chunks)) ∧
      res.getD (chunks.toNat - 1) []
        = t.set wd.toNat (e - ceilDiv e chunks * (chunks - 1)) ∧
      ((res.map fun s => s.getD wd.toNat 0).sum = e) ∧
      e - ceilDiv e chunks * (chunks - 1) ≤ ceilDiv e chunks := by
  have hbound : 0 ≤ wd ∧ wd.toNat < t.length := by
    by_contra hcon
    simp [vecGetI, hcon] at hv
  have hcc : Int.tdiv (e + chunks - 1) chunks = ceilDiv e chunks :=
    tdiv_ceil e chunks he hk
  have hres : constantChunk [mkT t] chunks dim
      = Except.ok (chunkShapes t wd.toNat (ceilDiv e chunks)
          (e - ceilDiv e chunks * (chunks - 1)) chunks) := by
    simp only [constantChunk, mkT]
    norm_num [VariableMeta.shapeT, hw, hv, hcc]
  refine ⟨_, hres, chunkShapes_length _ _ _ _ _, ?_, ?_, ?_, ?_⟩
  · intro i hi
    rw [chunkShapes_getD _ _ _ _ _ _ (by omega)]
    have hne : ((i : Int)) ≠ chunks - 1 := by
      have hcast : ((chunks.toNat : Int)) = chunks := Int.toNat_of_nonneg (by omega)
      omega
    simp [hne]
  · rw [chunkShapes_getD _ _ _ _ _ _ (by omega)]
    have hEq : ((chunks.toNat - 1 : Nat) : Int) = chunks - 1 := by
      have hcast : ((chunks.toNat : Int)) = chunks := Int.toNat_of_nonneg (by omega)
      omega
    simp [hEq]
  · obtain ⟨n, hn⟩ : ∃ n, chunks.toNat = n + 1 := by
      refine ⟨chunks.toNat - 1, ?_⟩
      omega
    have hKn : chunks = (n : Int) + 1 := by
      have hcast : ((chunks.toNat : Int)) = chunks := Int.toNat_of_nonneg (by omega)
      omega
    have hmap : (chunkShapes t wd.toNat (ceilDiv e chunks)
          (e - ceilDiv e chunks * (chunks - 1)) chunks).map (fun s => s.getD wd.toNat 0)
        = (List.range (n + 1)).map
            fun (i : Nat) => if (i : Int) = chunks - 1
              then e - ceilDiv e chunks * (chunks - 1) else ceilDiv e chunks := by
      rw [chunkShapes, hn, List.map_map]
      apply List.map_congr_left
      intro a _
      simp only [Function.comp_apply]
      split
      · exact getD_set_self _ _ _ hbound.2
      · exact getD_set_self _ _ _ hbound.2
    rw [hmap, range_map_lastDistinct_sum n _ _ chunks hKn]
    linear_combination -((ceilDiv e chunks) * hKn)
  · have htd : Int.tdiv (e + chunks - 1) chunks = (e + chunks - 1) / chunks :=
      Int.tdiv_eq_ediv (by omega) (by omega)
    have hmod := Int.ediv_add_emod (e + chunks - 1) chunks
    have hr0 : 0 ≤ (e + chunks - 1) % chunks := Int.emod_nonneg _ (by omega)
    have hrk : (e + chunks - 1) % chunks < chunks := Int.emod_lt_of_pos _ (by omega)
    have hce : ceilDiv e chunks = (e + chunks - 1) / chunks := by
      rw [← hcc, htd]
    rw [hce]
    have hexp : ((e + chunks - 1) / chunks) * (chunks - 1)
        = chunks * ((e + chunks - 1) / chunks) - (e + chunks - 1) / chunks := by
      ring
    rw [hexp]
    linarith [hmod, hr0, hrk]

instance {ε α : Type} [DecidableEq ε] [DecidableEq α] : DecidableEq (Except ε α) :=
  fun a b =>
  match a, b with
  | Except.ok x, Except.ok y =>
    if h : x = y then Decidable.isTrue (by rw [h])
    else Decidable.isFalse (fun hc => h (Except.ok.inj hc))
  | Except.error x, Except.error y =>
    if h : x = y then Decidable.isTrue (by rw [h])
    else Decidable.isFalse (fun hc => h (Except.error.inj hc))
  | Except.ok _, Except.error _ => Decidable.isFalse (fun hc => Except.noConfusion hc)
  | Except.error _, Except.ok _ => Decidable.isFalse (fun hc => Except.noConfusion hc)

theorem constantChunk_amended_witness :
    constantChunk [mkT [10]] 3 0 = Except.ok [[4], [4], [2]] ∧
    (([[4], [4], [2]] : TensorListShape).map fun s => s.getD 0 0).sum = 10 := by
  obtain ⟨res, h1, _, _, _, hsum, _⟩ :=
    constantChunk_amended [10] 3 0 0 10 (by decide) (by decide) (by decide) (by decide)
  have h2 : constantChunk [mkT [10]] 3 0 = Except.ok [[4], [4], [2]] := by rfl
  have hres : res = [[4], [4], [2]] := by
    rw [h1] at h2
    exact Except.ok.inj h2
  subst hres
  exact ⟨h1, by decide⟩

theorem vecGetI_ok (v : List Int) (i : Int) (h0 : 0 ≤ i) (h1 : i.toNat < v.length) :
    vecGetI v i = Except.ok (v.getD i.toNat 0) := by
  rw [vecGetI, dif_pos ⟨h0, h1⟩, List.get_eq_getElem, List.getD_eq_getElem _ _ h1]

theorem maybeWrapDim_ok_bounds (dim : Int) (rank : Nat) (w : Int)
    (h : maybeWrapDim dim rank = Except.ok w) : 0 ≤ w ∧ w < max (rank : Int) 1 := by
  unfold maybeWrapDim at h
  by_cases hcond : -(max (rank : Int) 1) ≤ dim ∧ dim < max (rank : Int) 1
  · rw [if_pos hcond] at h
    have hw := Except.ok.inj h
    by_cases hneg : dim < 0
    · rw [if_pos hneg] at hw
      constructor <;> linarith [hcond.1, hcond.2]
    · rw [if_neg hneg] at hw
      constructor <;> linarith [hcond.1, hcond.2, not_lt.mp hneg]
  · rw [if_neg hcond] at h
    exact Except.noConfusion h

theorem swapAt_length (l : List Int) (i j : Nat) : (swapAt l i j).length = l.length := by
  simp [swapAt]

theorem swapAt_getD (l : List Int) (i j k : Nat) (hi : i < l.length)
    (hj : j < l.length) :
    (swapAt l i j).getD k 0
      = if k = j then l.getD i 0 else if k = i then l.getD j 0 else l.getD k 0 := by
  unfold swapAt
  rw [List.getD_eq_getElem?_getD, List.getElem?_set, List.getElem?_set]
  simp only [List.length_set]
  by_cases hjk : j = k
  · rw [if_pos hjk, if_pos hj, if_pos hjk.symm]
    rfl
  · by_cases hik : i = k
    · rw [if_neg hjk, if_pos hik, if_pos hi, if_neg (fun h => hjk h.symm),
        if_pos hik.symm]
      rfl
    · rw [if_neg hjk, if_neg hik, if_neg (fun h => hjk h.symm),
        if_neg (fun h => hik h.symm), ← List.getD_eq_getElem?_getD]

theorem swapAt_involution (l : List Int) (i j : Nat)
    (hi : i < l.length) (hj : j < l.length) : swapAt (swapAt l i j) i j = l := by
  have hi2 : i < (swapAt l i j).length := by rw [swapAt_length]; exact hi
  have hj2 : j < (swapAt l i j).length := by rw [swapAt_length]; exact hj
  have hlen : (swapAt (swapAt l i j) i j).length = l.length := by
    rw [swapAt_length, swapAt_length]
  apply List.ext_getElem hlen
  intro k hk1 hk2
  rw [← List.getD_eq_getElem (swapAt (swapAt l i j) i j) 0 hk1,
    ← List.getD_eq_getElem l 0 hk2]
  rw [swapAt_getD _ _ _ _ hi2 hj2, swapAt_getD _ _ _ _ hi hj,
    swapAt_getD _ _ _ _ hi hj, swapAt_getD _ _ _ _ hi hj]
  by_cases hkj : k = j <;> by_cases hki : k = i <;> by_cases hij : i = j <;>
    simp_all

theorem transpose_ok (s : TensorShape) (d0 d1 w0 w1 : Int)
    (h0 : maybeWrapDim d0 s.length = Except.ok w0)
    (h1 : maybeWrapDim d1 s.length = Except.ok w1)
    (hn0 : 0 ≤ w0) (hn1 : 0 ≤ w1)
    (hw0 : w0.toNat < s.length) (hw1 : w1.toNat < s.length) :
    transpose [mkT s, intM d0, intM d1] = Except.ok (swapAt s w0.toNat w1.toNat) := by
  unfold transpose
  norm_num [mkT, intM, VariableMeta.shapeT]
  rw [h0, h1]
  simp [vecGetI_ok s w0 hn0 hw0, vecGetI_ok s w1 hn1 hw1, swapAt]

/-- C9: for every tensor record and every axis pair that wraps validly into
`[0, rank)` under Python-style negative-index wrapping, the two-axis
transpose wraps both indices and swaps the two extents, and applying it
again with the same axis pair returns the original shape: the two-axis
transpose is an involution. -/
theorem transpose_involution (s : TensorShape) (d0 d1 w0 w1 : Int)
    (h0 : maybeWrapDim d0 s.length = Except.ok w0)
    (h1 : maybeWrapDim d1 s.length = Except.ok w1)
    (hr : 1 ≤ s.length) :
    transpose [mkT s, intM d0, intM d1] = Except.ok (swapAt s w0.toNat w1.toNat) ∧
    transpose [mkT (swapAt s w0.toNat w1.toNat), intM d0, intM d1] = Except.ok s := by
  have hb0 := maybeWrapDim_ok_bounds d0 s.length w0 h0
  have hb1 := maybeWrapDim_ok_bounds d1 s.length w1 h1
  have hmax : max ((s.length : Int)) 1 = (s.length : Int) :=
    max_eq_left (by exact_mod_cast hr)
  rw [hmax] at hb0 hb1
  have hw0 : w0.toNat < s.length := by omega
  have hw1 : w1.toNat < s.length := by omega
  have hlen : (swapAt s w0.toNat w1.toNat).length = s.length := swapAt_length _ _ _
  have h0b : maybeWrapDim d0 (swapAt s w0.toNat w1.toNat).length = Except.ok w0 := by
    rw [hlen]; exact h0
  have h1b : maybeWrapDim d1 (swapAt s w0.toNat w1.toNat).length = Except.ok w1 := by
    rw [hlen]; exact h1
  constructor
  · exact transpose_ok s d0 d1 w0 w1 h0 h1 hb0.1 hb1.1 hw0 hw1
  · have hc := transpose_ok (swapAt s w0.toNat w1.toNat) d0 d1 w0 w1 h0b h1b
      hb0.1 hb1.1 (by rw [hlen]; exact hw0) (by rw [hlen]; exact hw1)
    rw [swapAt_involution s w0.toNat w1.toNat hw0 hw1] at hc
    exact hc

theorem transpose_involution_witness :
    transpose [mkT [2, 3, 4], intM 0, intM (-1)] = Except.ok [4, 3, 2] ∧
    transpose [mkT [4, 3, 2], intM 0, intM (-1)] = Except.ok [2, 3, 4] := by
  have h := transpose_involution [2, 3, 4] 0 (-1) 0 2 (by decide) (by decide) (by decide)
  have e1 : swapAt [2, 3, 4] (Int.toNat 0) (Int.toNat 2) = [4, 3, 2] := by decide
  rw [e1] at h
  exact h

theorem slice_ceil_eq (d step : Int) (hd : 0 < d) (hs : 1 ≤ step) :
    (if Int.tmod d step ≠ 0 then Int.tdiv d step + 1 else Int.tdiv d step)
      = ceilDiv d step := by
  have htd : Int.tdiv d step = d / step := Int.tdiv_eq_ediv (by omega) (by omega)
  have htm : Int.tmod d step = d % step := Int.tmod_eq_emod (by omega) (by omega)
  have hfd : Int.fdiv (-d) step = (-d) / step := Int.fdiv_eq_ediv _ (by omega)
  have hmod := Int.ediv_add_emod d step
  have hr0 : 0 ≤ d % step := Int.emod_nonneg d (by omega)
  have hrk : d % step < step := Int.emod_lt_of_pos d (by omega)
  rw [ceilDiv, hfd, htd, htm]
  by_cases hcase : d % step = 0
  · have h2 : (-d) / step = -(d / step) :=
      ediv_eq_of _ _ _ 0 (by omega) (by linear_combination -hmod + hcase)
        (by omega) (by omega)
    rw [h2]
    simp [hcase]
  · have h2 : (-d) / step = -(d / step + 1) :=
      ediv_eq_of _ _ _ (step - d % step) (by omega) (by linear_combination -hmod)
        (by omega) (by omega)
    rw [h2, if_pos hcase]
    ring

/-- C2 counterexample: `slice` uses `dim` without any negative-index
wrapping, so `dim = -1` on shape `[10]` is an out-of-range `shape[dim]`
access instead of the claimed wrapped behaviour; and for a negative step
the computed extent is the truncated-adjusted quotient, not the ceiling
(`slice` on `[4]` with `start 0, end 3, step -2` gives extent `0`, while
`ceil((3-0)/(-2)) = -1`). -/
theorem slice_claim_counterexample :
    slice [mkT [10], intM (-1), intM 8, intM 20, intM 1]
      = Except.error (ShapeErr.fault "std::vector index out of range") ∧
    slice [mkT [4], intM 0, intM 0, intM 3, intM (-2)] = Except.ok [0] ∧
    ceilDiv 3 (-2) = -1 := by
  refine ⟨rfl, rfl, by decide⟩

/-- C2 (amended): for a tensor record with extent `e` at dimension `dim`
where `0 ≤ dim < rank` (the code performs no negative-index wrapping of
`dim`) and a step `≥ 1`, `slice(dim, start, end, step)` returns the input
shape with only the extent at `dim` changed, to: `0` if `start ≥ e` or
`end ≤ -e`; else, after the asymmetric clamp of `start` and `end` into
`[0, e]`, `0` if `start ≥ end`, otherwise `⌈(end - start) / step⌉`. -/
theorem slice_wf (shape : TensorShape) (dim start stop step : Int) :
    slice [mkT shape, intM dim, intM start, intM stop, intM step]
      = match vecGetI shape dim with
        | Except.error err => Except.error err
        | Except.ok inDims =>
          if start ≥ inDims ∨ stop ≤ -inDims then Except.ok (shape.set dim.toNat 0)
          else if clampStart inDims start ≥ clampStop inDims stop then
            Except.ok (shape.set dim.toNat 0)
          else Except.ok (shape.set dim.toNat
            (if Int.tmod (clampStop inDims stop - clampStart inDims start) step ≠ 0
             then Int.tdiv (clampStop inDims stop - clampStart inDims start) step + 1
             else Int.tdiv (clampStop inDims stop - clampStart inDims start) step)) := rfl

theorem sliceBody_eq (shape : TensorShape) (dimn : Nat) (e start stop step : Int)
    (hstep : 1 ≤ step) :
    (if start ≥ e ∨ stop ≤ -e then Except.ok (shape.set dimn 0)
     else if clampStart e start ≥ clampStop e stop then
       (Except.ok (shape.set dimn 0) : Except ShapeErr TensorShape)
     else Except.ok (shape.set dimn
       (if Int.tmod (clampStop e stop - clampStart e start) step ≠ 0
        then Int.tdiv (clampStop e stop - clampStart e start) step + 1
        else Int.tdiv (clampStop e stop - clampStart e start) step)))
      = Except.ok (shape.set dimn (sliceExtentSpec e start stop step)) := by
  unfold sliceExtentSpec
  by_cases h1 : start ≥ e ∨ stop ≤ -e
  · rw [if_pos h1, if_pos h1]
  · rw [if_neg h1, if_neg h1]
    by_cases h2 : clampStart e start ≥ clampStop e stop
    · rw [if_pos h2, if_pos h2]
    · rw [if_neg h2, if_neg h2, slice_ceil_eq _ _ (by omega) hstep]

/-- C2 (amended): for a tensor record with extent `e` at dimension `dim`
where the code reads `shape[dim]` in range (no negative-index wrapping of
`dim` is performed) and a step `≥ 1`, `slice(dim, start, end, step)`
returns the input shape with only the extent at `dim` changed, to: `0` if
`start ≥ e` or `end ≤ -e`; otherwise, after the asymmetric clamp of
`start` and `end` into `[0, e]`, `0` if `start ≥ end`, else
`⌈(end - start) / step⌉`. -/
theorem slice_extent_amended (shape : TensorShape) (dim start stop step e : Int)
    (he : vecGetI shape dim = Except.ok e) (hstep : 1 ≤ step) :
    slice [mkT shape, intM dim, intM start, intM stop, intM step]
      = Except.ok (shape.set dim.toNat (sliceExtentSpec e start stop step)) := by
  rw [slice_wf, he]
  exact sliceBody_eq shape dim.toNat e start stop step hstep

theorem slice_extent_amended_witness :
    slice [mkT [10], intM 0, intM 8, intM 20, intM 1] = Except.ok [2] ∧
    slice [mkT [10], intM 0, intM 12, intM 20, intM 1] = Except.ok [0] := by
  have h1 := slice_extent_amended [10] 0 8 20 1 10 (by rfl) (by decide)
  have h2 := slice_extent_amended [10] 0 12 20 1 10 (by rfl) (by decide)
  exact ⟨h1.trans (by decide), h2.trans (by decide)⟩

theorem binaryOpRev_nil_left (bs : List Int) : binaryOpRev [] bs = Except.ok bs := rfl

theorem binaryOpRev_nil_right (as : List Int) (hov : overhangOne as [] = false) :
    binaryOpRev as [] = Except.ok as := by
  induction as with
  | nil => rfl
  | cons a as ih =>
    simp only [overhangOne, Bool.or_eq_false_iff, decide_eq_false_iff_not] at hov
    unfold binaryOpRev
    rw [if_neg hov.1, ih hov.2]
    rfl

theorem binaryOpRev_spec (xs : List Int) : ∀ (ys rs : List Int),
    overhangOne xs ys = false → broadcastSpecRev xs ys = some rs →
    binaryOpRev xs ys = Except.ok rs := by
  induction xs with
  | nil =>
    intro ys rs _ hsp
    have h0 : broadcastSpecRev [] ys = some ys := by cases ys <;> rfl
    rw [h0] at hsp
    rw [binaryOpRev_nil_left, Option.some.inj hsp]
  | cons x xs ih =>
    intro ys rs hov hsp
    cases ys with
    | nil =>
      simp only [overhangOne, Bool.or_eq_false_iff, decide_eq_false_iff_not] at hov
      have h0 : broadcastSpecRev (x :: xs) [] = some (x :: xs) := rfl
      rw [h0] at hsp
      rw [← Option.some.inj hsp]
      unfold binaryOpRev
      rw [if_neg hov.1, binaryOpRev_nil_right xs hov.2]
      rfl
    | cons y ys =>
      have hov2 : overhangOne xs ys = false := hov
      unfold broadcastSpecRev at hsp
      unfold binaryOpRev
      by_cases hx : x = 1
      · rw [if_pos hx]
        rw [if_pos hx] at hsp
        obtain ⟨rs2, h1, h2⟩ := Option.map_eq_some'.mp hsp
        rw [ih ys rs2 hov2 h1, ← h2]
        rfl
      · rw [if_neg hx]
        rw [if_neg hx] at hsp
        by_cases hy : y = 1
        · rw [if_pos hy]
          rw [if_pos hy] at hsp
          obtain ⟨rs2, h1, h2⟩ := Option.map_eq_some'.mp hsp
          rw [ih ys rs2 hov2 h1, ← h2]
          rfl
        · rw [if_neg hy]
          rw [if_neg hy] at hsp
          by_cases hxy : x = y
          · rw [if_pos hxy] at hsp
            rw [if_neg (fun h : y ≠ x => h hxy.symm)]
            obtain ⟨rs2, h1, h2⟩ := Option.map_eq_some'.mp hsp
            rw [ih ys rs2 hov2 h1, ← h2, hxy]
            rfl
          · rw [if_neg hxy] at hsp
            exact Option.noConfusion hsp

theorem binaryOpRev_mismatch (xs : List Int) : ∀ ys : List Int,
    hasMismatch xs ys = true →
    ∃ a b, binaryOpRev xs ys = Except.error (ShapeErr.err (sizeMismatchMsg a b)) ∧
      a ≠ b ∧ a ≠ 1 ∧ b ≠ 1 := by
  induction xs with
  | nil =>
    intro ys hm
    cases ys <;> simp [hasMismatch] at hm
  | cons x xs ih =>
    intro ys hm
    cases ys with
    | nil => simp [hasMismatch] at hm
    | cons y ys =>
      by_cases hx : x ≠ 1 ∧ y ≠ 1 ∧ x ≠ y
      · refine ⟨x, y, ?_, hx.2.2, hx.1, hx.2.1⟩
        unfold binaryOpRev
        rw [if_neg hx.1, if_neg hx.2.1, if_pos (fun h : y = x => hx.2.2 h.symm)]
      · have hm2 : hasMismatch xs ys = true := by
          simp only [hasMismatch, Bool.or_eq_true, Bool.and_eq_true,
            decide_eq_true_eq] at hm
          rcases hm with hhead | htail
          · exact absurd ⟨hhead.1.1, hhead.1.2, hhead.2⟩ hx
          · exact htail
        obtain ⟨a, b, heq, hne, ha1, hb1⟩ := ih ys hm2
        refine ⟨a, b, ?_, hne, ha1, hb1⟩
        unfold binaryOpRev
        by_cases hx1 : x = 1
        · rw [if_pos hx1, heq]
          rfl
        · by_cases hy1 : y = 1
          · rw [if_neg hx1, if_pos hy1, heq]
            rfl
          · have hxy : x = y := by
              by_contra hc
              exact hx ⟨hx1, hy1, hc⟩
            rw [if_neg hx1, if_neg hy1, if_neg (fun h : y ≠ x => h hxy.symm), heq]
            rfl

theorem binaryOp_mk (t0 t1 : TensorShape) :
    binaryOp [mkT t0, mkT t1]
      = if t1.length = 1 then Except.ok t0
        else (binaryOpRev t0.reverse t1.reverse).map List.reverse := rfl

/-- C1 counterexample: the shapes `[2,1]` and `[3]` are
broadcast-compatible with standard broadcast shape `[2,3]`, but because the
second operand has rank 1 `binaryOp` returns the first shape `[2,1]`
unchanged — not the broadcast shape the claim requires for every
broadcast-compatible pair. -/
theorem binaryOp_claim_counterexample :
    binaryOp [mkT [2, 1], mkT [3]] = Except.ok [2, 1] ∧
    broadcastSpec [2, 1] [3] = some [2, 3] ∧
    ([2, 1] : TensorShape) ≠ [2, 3] := by
  refine ⟨rfl, rfl, by decide⟩

/-- C1 (amended): (a) if the second operand's shape has rank 1, the output
is the first operand's shape unchanged (even when the extents conflict);
(b) for broadcast-compatible shapes with rank(B) ≠ 1, and such that no
trailing position has extent 1 in A with B exhausted (there the code
indexes out of range), `binaryOp` returns the standard
trailing-dimension-broadcast shape; (c) with rank(B) ≠ 1, if at some
trailing position both extents are present, differ, and neither is 1,
`binaryOp` returns a size-mismatch failure naming two such extents; (d) an
optional third operand is ignored. -/
theorem binaryOp_broadcast_amended :
    (∀ t0 t1 : TensorShape, t1.length = 1 → binaryOp [mkT t0, mkT t1] = Except.ok t0) ∧
    (∀ t0 t1 r : TensorShape, t1.length ≠ 1 →
      overhangOne t0.reverse t1.reverse = false →
      broadcastSpec t0 t1 = some r →
      binaryOp [mkT t0, mkT t1] = Except.ok r) ∧
    (∀ t0 t1 : TensorShape, t1.length ≠ 1 →
      hasMismatch t0.reverse t1.reverse = true →
      ∃ a b, binaryOp [mkT t0, mkT t1]
          = Except.error (ShapeErr.err (sizeMismatchMsg a b)) ∧ a ≠ b) ∧
    (∀ (t0 t1 : TensorShape) (extra : VariableMeta),
      binaryOp [mkT t0, mkT t1, extra] = binaryOp [mkT t0, mkT t1]) := by
  refine ⟨?_, ?_, ?_, ?_⟩
  · intro t0 t1 h
    rw [binaryOp_mk, if_pos h]
  · intro t0 t1 r h hov hsp
    rw [binaryOp_mk, if_neg h]
    unfold broadcastSpec at hsp
    obtain ⟨rs, h1, h2⟩ := Option.map_eq_some'.mp hsp
    rw [binaryOpRev_spec _ _ _ hov h1, ← h2]
    rfl
  · intro t0 t1 h hm
    obtain ⟨a, b, heq, hne, _, _⟩ := binaryOpRev_mismatch _ _ hm
    refine ⟨a, b, ?_, hne⟩
    rw [binaryOp_mk, if_neg h, heq]
    rfl
  · intro t0 t1 extra
    rfl

theorem binaryOp_broadcast_amended_witness :
    binaryOp [mkT [2, 3], mkT [5]] = Except.ok [2, 3] ∧
    binaryOp [mkT [3, 1], mkT [2, 1, 3]] = Except.ok [2, 3, 3] ∧
    binaryOp [mkT [2, 3], mkT [4, 5, 3]] ≠ Except.ok [4, 2, 3] ∧
    binaryOp [mkT [2, 3], mkT [7], intM 1] = binaryOp [mkT [2, 3], mkT [7]] := by
  obtain ⟨h1, h2, h3, h4⟩ := binaryOp_broadcast_amended
  refine ⟨h1 [2, 3] [5] (by decide),
    h2 [3, 1] [2, 1, 3] [2, 3, 3] (by decide) (by decide) (by rfl),
    ?_, h4 [2, 3] [7] (intM 1)⟩
  obtain ⟨a, b, heq, _⟩ := h3 [2, 3] [4, 5, 3] (by decide) (by decide)
  rw [heq]
  intro hc
  exact Except.noConfusion hc

theorem foldl_mul (l : List Int) : ∀ a : Int, l.foldl (· * ·) a = a * l.prod := by
  induction l with
  | nil =>
    intro a
    rw [List.foldl_nil, List.prod_nil, mul_one]
  | cons x xs ih =>
    intro a
    rw [List.foldl_cons, ih (a * x), List.prod_cons]
    ring

theorem reshapeScan_second_neg (l : List Int) : ∀ (i : Nat) (s n : Int), 0 ≤ n →
    (-1 : Int) ∈ l →
    reshapeScan l i s n
      = Except.error (ShapeErr.err "Unable to infer undetermined dimension") := by
  induction l with
  | nil =>
    intro i s n _ hmem
    exact absurd hmem (List.not_mem_nil _)
  | cons v rest ih =>
    intro i s n hn hmem
    unfold reshapeScan
    by_cases hv : v = -1
    · rw [if_pos hv, if_neg (show ¬n = -1 by omega)]
    · rw [if_neg hv]
      have hmem2 : (-1 : Int) ∈ rest := by
        cases List.mem_cons.mp hmem with
        | inl h => exact absurd h.symm hv
        | inr h => exact h
      exact ih (i + 1) (s * v) n hn hmem2

theorem reshapeScan_no_neg (l : List Int) : ∀ (i : Nat) (s n : Int),
    (-1 : Int) ∉ l → reshapeScan l i s n = Except.ok (s * l.prod, n) := by
  induction l with
  | nil =>
    intro i s n _
    unfold reshapeScan
    rw [List.prod_nil, mul_one]
  | cons v rest ih =>
    intro i s n hmem
    have hv : v ≠ -1 := fun h => hmem (h ▸ List.mem_cons_self v rest)
    have hmem2 : (-1 : Int) ∉ rest := fun h => hmem (List.mem_cons_of_mem v h)
    unfold reshapeScan
    rw [if_neg hv, ih (i + 1) (s * v) n hmem2, List.prod_cons, mul_assoc]

theorem reshapeScan_split (pre : List Int) : ∀ (post : List Int) (i : Nat) (s : Int),
    (-1 : Int) ∉ pre →
    reshapeScan (pre ++ -1 :: post) i s (-1)
      = reshapeScan post (i + pre.length + 1) (s * pre.prod * -1)
          ((i + pre.length : Nat) : Int) := by
  induction pre with
  | nil =>
    intro post i s _
    rw [List.nil_append]
    simp only [reshapeScan]
    norm_num
  | cons p pre ih =>
    intro post i s hmem
    have hp : p ≠ -1 := fun h => hmem (h ▸ List.mem_cons_self p pre)
    have hmem2 : (-1 : Int) ∉ pre := fun h => hmem (List.mem_cons_of_mem p h)
    rw [List.cons_append]
    simp only [reshapeScan]
    rw [if_neg hp, ih post (i + 1) (s * p) hmem2]
    have e1 : i + 1 + pre.length = i + (p :: pre).length := by
      rw [List.length_cons]
      omega
    have e2 : s * p * pre.prod = s * (p :: pre).prod := by
      rw [List.prod_cons]
      ring
    rw [e1, e2]

theorem reshapeScan_two_neg (l : List Int) : ∀ (i : Nat) (s : Int),
    2 ≤ l.count (-1) →
    reshapeScan l i s (-1)
      = Except.error (ShapeErr.err "Unable to infer undetermined dimension") := by
  induction l with
  | nil =>
    intro i s hc
    rw [List.count_nil] at hc
    omega
  | cons v rest ih =>
    intro i s hc
    unfold reshapeScan
    by_cases hv : v = -1
    · rw [if_pos hv, if_pos rfl]
      have hcr : 1 ≤ rest.count (-1) := by
        rw [hv] at hc
        rw [List.count_cons_self] at hc
        omega
      have hmem : (-1 : Int) ∈ rest := List.count_pos_iff.mp (by omega)
      exact reshapeScan_second_neg rest (i + 1) (s * v) (i : Int) (by omega) hmem
    · rw [if_neg hv]
      have hcr : 2 ≤ rest.count (-1) := by
        rw [List.count_cons_of_ne (fun h => hv h.symm)] at hc
        exact hc
      exact ih (i + 1) (s * v) hcr

theorem count_le_one_split (l : List Int) (hc : l.count (-1) ≤ 1) :
    (-1 : Int) ∉ l ∨
      ∃ pre post, l = pre ++ -1 :: post ∧ (-1 : Int) ∉ pre ∧ (-1 : Int) ∉ post := by
  induction l with
  | nil => exact Or.inl (List.not_mem_nil _)
  | cons v rest ih =>
    by_cases hv : v = -1
    · right
      rw [hv, List.count_cons_self] at hc
      refine ⟨[], rest, by rw [hv]; rfl, List.not_mem_nil _, ?_⟩
      intro hmem
      have := List.count_pos_iff.mpr hmem
      omega
    · have hc2 : rest.count (-1) ≤ 1 := by
        rw [List.count_cons_of_ne (fun h => hv h.symm)] at hc
        exact hc
      cases ih hc2 with
      | inl h =>
        left
        intro hm
        cases List.mem_cons.mp hm with
        | inl h2 => exact hv h2.symm
        | inr h2 => exact h h2
      | inr h =>
        obtain ⟨pre, post, heq, hp1, hp2⟩ := h
        right
        refine ⟨v :: pre, post, by rw [heq, List.cons_append], ?_, hp2⟩
        intro hm
        cases List.mem_cons.mp hm with
        | inl h2 => exact hv h2.symm
        | inr h2 => exact hp1 h2

theorem set_append_length (pre post : List Int) (x q : Int) :
    (pre ++ x :: post).set pre.length q = pre ++ q :: post := by
  induction pre with
  | nil => rfl
  | cons p pre ih =>
    rw [List.cons_append, List.length_cons, List.set_cons_succ, ih, List.cons_append]

theorem filter_no_neg (l : List Int) (h : (-1 : Int) ∉ l) :
    l.filter (fun v => v != -1) = l :=
  List.filter_eq_self.mpr (fun a ha => by
    simp only [bne_iff_ne, ne_eq]
    exact fun hc => h (hc ▸ ha))

theorem filter_split (pre post : List Int) (h1 : (-1 : Int) ∉ pre)
    (h2 : (-1 : Int) ∉ post) :
    (pre ++ -1 :: post).filter (fun v => v != -1) = pre ++ post := by
  rw [List.filter_append, filter_no_neg pre h1, List.filter_cons]
  norm_num
  intro a ha
  exact fun hc => h2 (hc ▸ ha)

theorem reshape_wf (t : TensorShape) (targ : List Int) :
    reshape [mkT t, intsM targ]
      = match reshapeScan targ 0 1 (-1) with
        | Except.error e => Except.error e
        | Except.ok (s1, negIndex) =>
          if Int.tmod (t.foldl (· * ·) 1) s1 ≠ 0 then
            Except.error (ShapeErr.err "Reshape size is invalid for input size.")
          else if negIndex ≠ -1 then
            Except.ok (targ.set negIndex.toNat (Int.tdiv (-(t.foldl (· * ·) 1)) s1))
          else Except.ok targ := rfl

theorem reshape_wf_scan_err (t : TensorShape) (targ : List Int) (e : ShapeErr)
    (h : reshapeScan targ 0 1 (-1) = Except.error e) :
    reshape [mkT t, intsM targ] = Except.error e := by
  rw [reshape_wf, h]

theorem reshape_wf_scan_ok (t : TensorShape) (targ : List Int) (s1 negIndex : Int)
    (h : reshapeScan targ 0 1 (-1) = Except.ok (s1, negIndex)) :
    reshape [mkT t, intsM targ]
      = (if Int.tmod (t.foldl (· * ·) 1) s1 ≠ 0 then
          Except.error (ShapeErr.err "Reshape size is invalid for input size.")
        else if negIndex ≠ -1 then
          Except.ok (targ.set negIndex.toNat (Int.tdiv (-(t.foldl (· * ·) 1)) s1))
        else Except.ok targ) := by
  rw [reshape_wf, h]

/-- C4: `reshape` fails if the target holds more than one `-1`; fails if
the product of the input extents is not evenly divisible by the product of
the non-`-1` target extents; otherwise it returns the target with the
single `-1` slot (if any) resolved to the quotient, so that with exactly
one `-1` the product of the output extents equals the product of the input
extents.  The divisibility and resolution parts are stated for targets
without zero entries, where the C++ `%` and `/` are well defined. -/
theorem reshape_spec :
    (∀ (t : TensorShape) (targ : List Int), 2 ≤ targ.count (-1) →
      reshape [mkT t, intsM targ]
        = Except.error (ShapeErr.err "Unable to infer undetermined dimension")) ∧
    (∀ (t : TensorShape) (targ : List Int), targ.count (-1) ≤ 1 → (0 : Int) ∉ targ →
      ¬((targ.filter (fun v => v != -1)).prod ∣ t.prod) →
      reshape [mkT t, intsM targ]
        = Except.error (ShapeErr.err "Reshape size is invalid for input size.")) ∧
    (∀ (t : TensorShape) (pre post : List Int), (-1 : Int) ∉ pre → (-1 : Int) ∉ post →
      (0 : Int) ∉ pre ++ post → ((pre ++ post).prod ∣ t.prod) →
      reshape [mkT t, intsM (pre ++ -1 :: post)]
        = Except.ok (pre ++ Int.tdiv t.prod ((pre ++ post).prod) :: post) ∧
      (pre ++ Int.tdiv t.prod ((pre ++ post).prod) :: post).prod = t.prod) ∧
    (∀ (t : TensorShape) (targ : List Int), (-1 : Int) ∉ targ → (0 : Int) ∉ targ →
      (targ.prod ∣ t.prod) → reshape [mkT t, intsM targ] = Except.ok targ) := by
  have hscanSplit : ∀ (pre post : List Int), (-1 : Int) ∉ pre → (-1 : Int) ∉ post →
      reshapeScan (pre ++ -1 :: post) 0 1 (-1)
        = Except.ok (1 * pre.prod * -1 * post.prod, ((0 + pre.length : Nat) : Int)) := by
    intro pre post hp1 hp2
    rw [reshapeScan_split pre post 0 1 hp1,
      reshapeScan_no_neg post (0 + pre.length + 1) (1 * pre.prod * -1) _ hp2]
  refine ⟨?_, ?_, ?_, ?_⟩
  · intro t targ h
    exact reshape_wf_scan_err t targ _ (reshapeScan_two_neg targ 0 1 h)
  · intro t targ hc h0 hdvd
    cases count_le_one_split targ hc with
    | inl hno =>
      rw [reshape_wf_scan_ok t targ (1 * targ.prod) (-1)
        (reshapeScan_no_neg targ 0 1 (-1) hno)]
      rw [filter_no_neg targ hno] at hdvd
      have hne : Int.tmod (t.foldl (· * ·) 1) (1 * targ.prod) ≠ 0 := by
        rw [foldl_mul t 1, one_mul, one_mul]
        exact fun hcon => hdvd (Int.dvd_of_tmod_eq_zero hcon)
      rw [if_pos hne]
    | inr hdec =>
      obtain ⟨pre, post, heq, hp1, hp2⟩ := hdec
      subst heq
      rw [reshape_wf_scan_ok t _ _ _ (hscanSplit pre post hp1 hp2)]
      rw [filter_split pre post hp1 hp2] at hdvd
      have hs1 : (1 : Int) * pre.prod * -1 * post.prod = -((pre ++ post).prod) := by
        rw [List.prod_append]
        ring
      have hne : Int.tmod (t.foldl (· * ·) 1) (1 * pre.prod * -1 * post.prod) ≠ 0 := by
        rw [hs1, foldl_mul t 1, one_mul]
        intro hcon
        exact hdvd (neg_dvd.mp (Int.dvd_of_tmod_eq_zero hcon))
      rw [if_pos hne]
  · intro t pre post hp1 hp2 h0 hdvd
    have hs1 : (1 : Int) * pre.prod * -1 * post.prod = -((pre ++ post).prod) := by
      rw [List.prod_append]
      ring
    have hmodz : Int.tmod (t.foldl (· * ·) 1) (1 * pre.prod * -1 * post.prod) = 0 := by
      rw [hs1, foldl_mul t 1, one_mul]
      exact Int.tmod_eq_zero_of_dvd (neg_dvd.mpr hdvd)
    have hval : Int.tdiv (-(t.foldl (· * ·) 1)) (1 * pre.prod * -1 * post.prod)
        = Int.tdiv t.prod ((pre ++ post).prod) := by
      rw [hs1, foldl_mul t 1, one_mul, Int.tdiv_neg, Int.neg_tdiv, neg_neg]
    constructor
    · rw [reshape_wf_scan_ok t _ _ _ (hscanSplit pre post hp1 hp2)]
      rw [if_neg (fun hcon => hcon hmodz)]
      rw [if_pos (show (((0 + pre.length : Nat) : Int)) ≠ -1 by omega)]
      have htonat : (((0 + pre.length : Nat) : Int)).toNat = pre.length := by omega
      rw [htonat, set_append_length, hval]
    · have hq := Int.mul_tdiv_cancel' hdvd
      set q := Int.tdiv (List.prod t) ((pre ++ post).prod) with hqdef
      rw [List.prod_append, List.prod_cons]
      rw [List.prod_append] at hq
      linear_combination hq
  · intro t targ hno h0 hdvd
    rw [reshape_wf_scan_ok t targ (1 * targ.prod) (-1)
      (reshapeScan_no_neg targ 0 1 (-1) hno)]
    have hmodz : Int.tmod (t.foldl (· * ·) 1) (1 * targ.prod) = 0 := by
      rw [foldl_mul t 1, one_mul, one_mul]
      exact Int.tmod_eq_zero_of_dvd hdvd
    rw [if_neg (fun hcon => hcon hmodz), if_neg (fun hcon : (-1 : Int) ≠ -1 => hcon rfl)]

theorem reshape_spec_witness :
    reshape [mkT [2, 3, 4], intsM [-1, -1]]
      = Except.error (ShapeErr.err "Unable to infer undetermined dimension") ∧
    reshape [mkT [2, 3, 4], intsM [5]]
      = Except.error (ShapeErr.err "Reshape size is invalid for input size.") ∧
    reshape [mkT [2, 3, 4], intsM [4, -1, 3]] = Except.ok [4, 2, 3] ∧
    (([4, 2, 3] : List Int).prod = ([2, 3, 4] : List Int).prod) ∧
    reshape [mkT [2, 3, 4], intsM [24]] = Except.ok [24] := by
  obtain ⟨h1, h2, h3, h4⟩ := reshape_spec
  have hc3 := h3 [2, 3, 4] [4] [3] (by decide) (by decide) (by decide) (by norm_num)
  have e2 : ([4] : List Int)
      ++ Int.tdiv (List.prod [2, 3, 4]) (List.prod ([4] ++ [3])) :: [3] = [4, 2, 3] := by
    decide
  refine ⟨h1 [2, 3, 4] [-1, -1] (by decide),
    h2 [2, 3, 4] [5] (by decide) (by decide) (by norm_num), ?_, ?_,
    h4 [2, 3, 4] [24] (by decide) (by decide) (by norm_num)⟩
  · have h := hc3.1
    rw [e2] at h
    exact h
  · have h := hc3.2
    rw [e2] at h
    exact h

theorem opt_getD (o : Option VariableMeta) (h : o.isSome) :
    o = some (o.getD default) := by
  cases o with
  | none => simp at h
  | some v => rfl

theorem mapFind_isSome_getD (m : ShapeMap) (k : Nat) (h : (mapFind m k).isSome) :
    mapFind m k = some (mapGetD m k) := by
  rw [mapGetD]
  exact opt_getD _ h

theorem copyOuts_frame (ss : List Nat) : ∀ (os : List Nat) (m : ShapeMap) (k : Nat),
    k ∉ os → (mapFind m k).isSome →
    mapFind (copyOuts m ss os) k = mapFind m k := by
  induction ss with
  | nil =>
    intro os m k _ _
    cases os <;> rfl
  | cons s ss ih =>
    intro os m k hk hsome
    cases os with
    | nil => rfl
    | cons o os2 =>
      simp only [copyOuts]
      have hk2 : k ∉ os2 := fun h => hk (List.mem_cons_of_mem _ h)
      have hko : k ≠ o := fun h => hk (h ▸ List.mem_cons_self _ _)
      have hfind1 : mapFind (if (mapFind m s).isSome then m else mapSet m s default) k
          = mapFind m k := by
        by_cases hs : (mapFind m s).isSome
        · rw [if_pos hs]
        · rw [if_neg hs]
          by_cases hks : s = k
          · subst hks
            exact absurd hsome hs
          · exact mapFind_mapSet_ne m s k default hks
      have hfind2 : mapFind (mapSet (if (mapFind m s).isSome then m else mapSet m s default)
            o (mapGetD (if (mapFind m s).isSome then m else mapSet m s default) s)) k
          = mapFind m k := by
        rw [mapFind_mapSet_ne _ _ _ _ (fun h => hko h.symm), hfind1]
      rw [ih os2 _ k hk2 (by rw [hfind2]; exact hsome), hfind2]

theorem copyOuts_correct (ss : List Nat) : ∀ (os : List Nat) (m : ShapeMap),
    os.Nodup → (∀ x ∈ os, x ∉ ss) → ss.length = os.length →
    ∀ i, i < os.length →
      mapFind (copyOuts m ss os) (os.getD i 0) = mapFind (copyOuts m ss os) (ss.getD i 0)
      ∧ (mapFind (copyOuts m ss os) (os.getD i 0)).isSome := by
  induction ss with
  | nil =>
    intro os m _ _ hlen i hi
    rw [← hlen] at hi
    simp at hi
  | cons s ss ih =>
    intro os m hnd hdisj hlen i hi
    cases os with
    | nil => simp at hi
    | cons o os2 =>
      simp only [copyOuts]
      have hos : o ∉ os2 := (List.nodup_cons.mp hnd).1
      have hnd2 : os2.Nodup := (List.nodup_cons.mp hnd).2
      have hdisjO : o ∉ s :: ss := hdisj o (List.mem_cons_self o os2)
      have hos2 : o ≠ s := fun h => hdisjO (h ▸ List.mem_cons_self s ss)
      have hdisj2 : ∀ x ∈ os2, x ∉ ss := fun x hx hin =>
        hdisj x (List.mem_cons_of_mem o hx) (List.mem_cons_of_mem s hin)
      have hsNotos2 : s ∉ os2 := fun h =>
        hdisj s (List.mem_cons_of_mem o h) (List.mem_cons_self s ss)
      set m1 := if (mapFind m s).isSome then m else mapSet m s default with hm1def
      have hm1s : mapFind m1 s = some (mapGetD m1 s) := by
        by_cases hs : (mapFind m s).isSome
        · rw [hm1def, if_pos hs]
          exact mapFind_isSome_getD m s hs
        · rw [hm1def, if_neg hs, mapGetD, mapFind_mapSet_self]
          rfl
      set M := mapSet m1 o (mapGetD m1 s) with hMdef
      have hMo : mapFind M o = some (mapGetD m1 s) := mapFind_mapSet_self m1 o _
      have hMs : mapFind M s = some (mapGetD m1 s) := by
        rw [hMdef, mapFind_mapSet_ne _ _ _ _ hos2]
        exact hm1s
      cases i with
      | zero =>
        have hFo : mapFind (copyOuts M ss os2) o = some (mapGetD m1 s) := by
          rw [copyOuts_frame ss os2 M o hos (by rw [hMo]; rfl), hMo]
        have hFs : mapFind (copyOuts M ss os2) s = some (mapGetD m1 s) := by
          rw [copyOuts_frame ss os2 M s hsNotos2 (by rw [hMs]; rfl), hMs]
        refine ⟨?_, ?_⟩
        · rw [List.getD_cons_zero, List.getD_cons_zero, hFo, hFs]
        · rw [List.getD_cons_zero, hFo]
          rfl
      | succ j =>
        rw [List.getD_cons_succ, List.getD_cons_succ]
        exact ih os2 M hnd2 hdisj2 (by
          rw [List.length_cons, List.length_cons] at hlen
          omega) j (by
          rw [List.length_cons] at hi
          omega)

/-- C5: when the walker visits a node carrying a nested subgraph and the
visit succeeds, the subgraph's output count equals the node's output count
(the `CHECK_EQ` aborts otherwise), and the Value Record stored in the Value
Map for each outer output Value equals the Value Record of the positionally
corresponding subgraph output Value. -/
theorem runRecursively_copies_subgraph_outputs
    (m m2 : ShapeMap) (ins outs subIns subOuts : List Nat) (subNodes : List GNode)
    (hok : runNode m (GNode.fusion ins outs subIns subOuts subNodes) = Except.ok m2)
    (hnd : outs.Nodup) (hdisj : ∀ o ∈ outs, o ∉ subOuts) :
    subOuts.length = outs.length ∧
      ∀ i, i < outs.length →
        mapFind m2 (outs.getD i 0) = mapFind m2 (subOuts.getD i 0)
        ∧ (mapFind m2 (outs.getD i 0)).isSome := by
  unfold runNode at hok
  split at hok
  · exact Except.noConfusion hok
  · split at hok
    · exact Except.noConfusion hok
    · split at hok
      · exact Except.noConfusion hok
      · split at hok
        · exact Except.noConfusion hok
        · rename_i hcond
          have hm2 := Except.ok.inj hok
          have hlen : subOuts.length = outs.length := by omega
          refine ⟨hlen, fun i hi => ?_⟩
          rw [← hm2]
          exact copyOuts_correct subOuts outs _ hnd hdisj hlen i hi

/-- Value map seeded with the two outer inputs of the fusion demo: shapes
`[4,5]` and `[5,6]`. -/
def fusionDemoMap : ShapeMap := [(1, mkT [4, 5]), (2, mkT [5, 6])]

/-- A fusion node wrapping the subgraph `x, y -> mm(x, y)`: outer inputs
`1, 2`, outer output `3`; subgraph inputs `11, 12`, subgraph output `13`. -/
def fusionDemoNode : GNode :=
  GNode.fusion [1, 2] [3] [11, 12] [13] [GNode.op OpKind.mm [11, 12] [13]]

/-- The value map after visiting the fusion demo node. -/
def fusionDemoResult : ShapeMap :=
  [(1, mkT [4, 5]), (2, mkT [5, 6]), (11, mkT [4, 5]), (12, mkT [5, 6]),
    (13, mkT [4, 6]), (3, mkT [4, 6])]

theorem runRecursively_copies_subgraph_outputs_witness :
    runNode fusionDemoMap fusionDemoNode = Except.ok fusionDemoResult ∧
    mapFind fusionDemoResult 3 = mapFind fusionDemoResult 13 ∧
    mapFind fusionDemoResult 3 = some (mkT [4, 6]) := by
  have hrun : runNode fusionDemoMap fusionDemoNode = Except.ok fusionDemoResult := rfl
  have h := runRecursively_copies_subgraph_outputs fusionDemoMap fusionDemoResult
    [1, 2] [3] [11, 12] [13] [GNode.op OpKind.mm [11, 12] [13]] hrun
    (by decide) (by decide)
  have h3 := (h.2 0 (by decide)).1
  exact ⟨hrun, h3, by decide⟩

theorem seed_single (m : ShapeMap) (gid : Nat) (v : IValue) (s : TensorShape)
    (iv : List Int) (hm : mapFind m gid = none)
    (hv : seedOne v = Except.ok (s, iv)) :
    getGraphInputShape m [gid] [v]
      = Except.ok (setIntValue (emplaceShape m gid (ElemShape.tensor s)) gid iv) ∧
    mapFind (setIntValue (emplaceShape m gid (ElemShape.tensor s)) gid iv) gid
      = some { listOfShape := [ElemShape.tensor s], intValue := iv } := by
  constructor
  · simp only [getGraphInputShape]
    rw [hv]
  · rw [mapFind_setIntValue_self]
    have h1 : mapGetD (emplaceShape m gid (ElemShape.tensor s)) gid
        = { listOfShape := (mapGetD m gid).listOfShape ++ [ElemShape.tensor s],
            intValue := (mapGetD m gid).intValue } := by
      rw [mapGetD, mapFind_emplaceShape_self]
      rfl
    rw [h1]
    have h2 : mapGetD m gid = default := by
      rw [mapGetD, hm]
      rfl
    rw [h2]
    rfl

theorem getGraphInputShape_unsupported (vs : List IValue) :
    ∀ (gs : List Nat) (m : ShapeMap), IValue.unsupported ∈ vs →
    vs.length ≤ gs.length →
    getGraphInputShape m gs vs
      = Except.error (ShapeErr.err "Input type doesn't support yet.") := by
  induction vs with
  | nil =>
    intro gs m hmem _
    exact absurd hmem (List.not_mem_nil _)
  | cons v vs ih =>
    intro gs m hmem hlen
    cases gs with
    | nil =>
      rw [List.length_cons, List.length_nil] at hlen
      omega
    | cons g gs2 =>
      have hlen2 : vs.length ≤ gs2.length := by
        rw [List.length_cons, List.length_cons] at hlen
        omega
      have htail : v ≠ IValue.unsupported → IValue.unsupported ∈ vs := by
        intro hv
        cases List.mem_cons.mp hmem with
        | inl h => exact absurd h.symm hv
        | inr h => exact h
      cases v with
      | tensor dims => exact ih gs2 _ (htail (fun h => IValue.noConfusion h)) hlen2
      | boolVal b => exact ih gs2 _ (htail (fun h => IValue.noConfusion h)) hlen2
      | intVal n => exact ih gs2 _ (htail (fun h => IValue.noConfusion h)) hlen2
      | intList l => exact ih gs2 _ (htail (fun h => IValue.noConfusion h)) hlen2
      | unsupported => rfl

/-- C6: `run` fails with an arity error whenever the number of example
input values differs from the graph's declared input count; otherwise
input seeding classifies every (graph input, example value) pair: a tensor
yields a record whose single shape entry equals the tensor's dimensions
with no integer payload; a boolean or integer scalar yields shape entry
`[1]` with the single value as integer payload; a list of integers yields
shape entry `[length, 1]` with the list as payload; and any other input
kind makes `run` fail with the unsupported-input-type error. -/
theorem run_input_seeding :
    (∀ (g : Graph) (inputs : List IValue), inputs.length ≠ g.ins.length →
      run g inputs = Except.error
        (ShapeErr.err "Number of inputs mismatch between Graph and actual inputs")) ∧
    (∀ (m : ShapeMap) (gid : Nat) (dims : TensorShape), mapFind m gid = none →
      ∃ m2, getGraphInputShape m [gid] [IValue.tensor dims] = Except.ok m2 ∧
        mapFind m2 gid = some (mkT dims)) ∧
    (∀ (m : ShapeMap) (gid : Nat) (b : Bool), mapFind m gid = none →
      ∃ m2, getGraphInputShape m [gid] [IValue.boolVal b] = Except.ok m2 ∧
        mapFind m2 gid = some (intM (if b then 1 else 0))) ∧
    (∀ (m : ShapeMap) (gid : Nat) (v : Int), mapFind m gid = none →
      ∃ m2, getGraphInputShape m [gid] [IValue.intVal v] = Except.ok m2 ∧
        mapFind m2 gid = some (intM v)) ∧
    (∀ (m : ShapeMap) (gid : Nat) (l : List Int), mapFind m gid = none →
      ∃ m2, getGraphInputShape m [gid] [IValue.intList l] = Except.ok m2 ∧
        mapFind m2 gid = some (intsM l)) ∧
    (∀ (g : Graph) (inputs : List IValue), inputs.length = g.ins.length →
      IValue.unsupported ∈ inputs →
      run g inputs = Except.error (ShapeErr.err "Input type doesn't support yet.")) := by
  refine ⟨?_, ?_, ?_, ?_, ?_, ?_⟩
  · intro g inputs h
    unfold run
    rw [if_pos h]
  · intro m gid dims hm
    exact ⟨_, (seed_single m gid (IValue.tensor dims) dims [] hm rfl).1,
      (seed_single m gid (IValue.tensor dims) dims [] hm rfl).2⟩
  · intro m gid b hm
    exact ⟨_, (seed_single m gid (IValue.boolVal b) [1] [if b then 1 else 0] hm rfl).1,
      (seed_single m gid (IValue.boolVal b) [1] [if b then 1 else 0] hm rfl).2⟩
  · intro m gid v hm
    exact ⟨_, (seed_single m gid (IValue.intVal v) [1] [v] hm rfl).1,
      (seed_single m gid (IValue.intVal v) [1] [v] hm rfl).2⟩
  · intro m gid l hm
    exact ⟨_, (seed_single m gid (IValue.intList l) [(l.length : Int), 1] l hm rfl).1,
      (seed_single m gid (IValue.intList l) [(l.length : Int), 1] l hm rfl).2⟩
  · intro g inputs hlen hmem
    unfold run
    rw [if_neg (by omega)]
    unfold runGraph
    rw [getGraphInputShape_unsupported inputs g.ins [] hmem (by omega)]

theorem run_input_seeding_witness :
    run ⟨[0], [0], []⟩ []
      = Except.error
          (ShapeErr.err "Number of inputs mismatch between Graph and actual inputs") ∧
    mapFind [(7, mkT [3, 4])] 7 = some (mkT [3, 4]) ∧
    mapFind [(7, intM 1)] 7 = some (intM (if true then 1 else 0)) ∧
    mapFind [(7, intM 5)] 7 = some (intM 5) ∧
    mapFind [(7, intsM [1, 2, 3])] 7 = some (intsM [1, 2, 3]) ∧
    run ⟨[0], [0], []⟩ [IValue.unsupported]
      = Except.error (ShapeErr.err "Input type doesn't support yet.") := by
  obtain ⟨h1, h2, h3, h4, h5, h6⟩ := run_input_seeding
  obtain ⟨mA, hsA, hfA⟩ := h2 [] 7 [3, 4] rfl
  obtain ⟨mB, hsB, hfB⟩ := h3 [] 7 true rfl
  obtain ⟨mC, hsC, hfC⟩ := h4 [] 7 5 rfl
  obtain ⟨mD, hsD, hfD⟩ := h5 [] 7 [1, 2, 3] rfl
  have hpA : getGraphInputShape [] [7] [IValue.tensor [3, 4]]
      = Except.ok [(7, mkT [3, 4])] := rfl
  have hpB : getGraphInputShape [] [7] [IValue.boolVal true]
      = Except.ok [(7, intM 1)] := rfl
  have hpC : getGraphInputShape [] [7] [IValue.intVal 5]
      = Except.ok [(7, intM 5)] := rfl
  have hpD : getGraphInputShape [] [7] [IValue.intList [1, 2, 3]]
      = Except.ok [(7, intsM [1, 2, 3])] := rfl
  rw [hsA] at hpA
  rw [hsB] at hpB
  rw [hsC] at hpC
  rw [hsD] at hpD
  rw [Except.ok.inj hpA] at hfA
  rw [Except.ok.inj hpB] at hfB
  rw [Except.ok.inj hpC] at hfC
  rw [Except.ok.inj hpD] at hfD
  exact ⟨h1 ⟨[0], [0], []⟩ [] (by decide), hfA, hfB, hfC, hfD,
    h6 ⟨[0], [0], []⟩ [IValue.unsupported] (by decide) (by decide)⟩

/-- C7 counterexample: with well-formed arity and integer payloads but a
`dim` outside the tensor's rank, `slice` performs the out-of-range vector
access `shape[dim]` (undefined behaviour in the C++) instead of returning
a typed failure, contradicting the claim that every shape function returns
a typed failure on malformed rank. -/
theorem error_propagation_claim_counterexample :
    slice [mkT [10], intM 1, intM 0, intM 5, intM 1]
      = Except.error (ShapeErr.fault "std::vector index out of range") := rfl

/-- C7 (amended): the arity malformations that the embedded shape
functions check produce typed failures, and any failure is propagated
unchanged — first failure wins, verbatim — through the dispatcher and the
recursive graph walk to the caller of `run()`; however, some rank and
payload malformations (e.g. a `slice` dimension outside the rank) are not
checked and cause out-of-range accesses or aborts instead of typed
failures. -/
theorem error_propagation_amended :
    (∀ metas : MetaStack, metas.length ≠ 2 → metas.length ≠ 3 →
      binaryOp metas
        = Except.error (ShapeErr.err "Expected two or three inputs shapes of this operation.")) ∧
    (∀ metas : MetaStack, metas.length ≠ 2 →
      mm metas = Except.error (ShapeErr.err "Expected two inputs shapes of this operation.")) ∧
    (∀ metas : MetaStack, metas.length ≠ 3 →
      transpose metas
        = Except.error (ShapeErr.err ("Expect 3 inputs, get " ++ toString metas.length))) ∧
    (∀ metas : MetaStack, metas.length ≠ 5 →
      slice metas
        = Except.error (ShapeErr.err ("Expected 5 inputs, got " ++ toString metas.length ++ "."))) ∧
    (∀ metas : MetaStack, metas.length ≠ 2 →
      reshape metas
        = Except.error (ShapeErr.err ("Expected two inputs shapes, got " ++ toString metas.length ++ "."))) ∧
    (∀ (metas : MetaStack) (chunks dim : Int), metas.length ≠ 1 →
      constantChunk metas chunks dim
        = Except.error (ShapeErr.err ("Expected one input, got " ++ toString metas.length ++ "."))) ∧
    (∀ metas : MetaStack, metas.length ≠ 3 →
      chunk metas
        = Except.error (ShapeErr.err ("Expected one input, got " ++ toString metas.length ++ "."))) ∧
    (∀ (m : ShapeMap) (ins outs : List Nat) (kind : OpKind) (metas : MetaStack)
        (e : ShapeErr), getNodeInputShape m ins = Except.ok metas →
      dispatchOp kind metas = Except.error e →
      shapeOnNode m kind ins outs = Except.error e) ∧
    (∀ (pre post : List GNode) (m m1 : ShapeMap) (n : GNode) (e : ShapeErr),
      runNodes m pre = Except.ok m1 → runNode m1 n = Except.error e →
      runNodes m (pre ++ n :: post) = Except.error e) ∧
    (∀ (g : Graph) (inputs : List IValue) (m0 : ShapeMap) (e : ShapeErr),
      inputs.length = g.ins.length →
      getGraphInputShape [] g.ins inputs = Except.ok m0 →
      runNodes m0 g.nodes = Except.error e →
      run g inputs = Except.error e) := by
  have hwalk : ∀ (pre : List GNode), ∀ (post : List GNode) (m m1 : ShapeMap)
      (n : GNode) (e : ShapeErr),
      runNodes m pre = Except.ok m1 → runNode m1 n = Except.error e →
      runNodes m (pre ++ n :: post) = Except.error e := by
    intro pre
    induction pre with
    | nil =>
      intro post m m1 n e hok hn
      have hm : m = m1 := Except.ok.inj hok
      rw [List.nil_append]
      simp only [runNodes]
      rw [hm, hn]
    | cons p pre ih =>
      intro post m m1 n e hok hn
      simp only [runNodes] at hok
      rw [List.cons_append]
      simp only [runNodes]
      split at hok
      · exact Except.noConfusion hok
      · rename_i m2 hp
        exact ih post m2 m1 n e hok hn
  refine ⟨?_, ?_, ?_, ?_, ?_, ?_, ?_, ?_, hwalk, ?_⟩
  · intro metas h2 h3
    unfold binaryOp
    rw [if_pos ⟨h2, h3⟩]
  · intro metas h
    unfold mm
    rw [if_pos h]
  · intro metas h
    unfold transpose
    rw [if_pos h]
  · intro metas h
    unfold slice
    rw [if_pos h]
  · intro metas h
    unfold reshape
    rw [if_pos h]
  · intro metas chunks dim h
    unfold constantChunk
    rw [if_pos h]
  · intro metas h
    unfold chunk
    rw [if_pos h]
  · intro m ins outs kind metas e hin hdisp
    unfold shapeOnNode
    rw [hin]
    simp [hdisp]
  · intro g inputs m0 e hlen hseed hrun
    unfold run
    rw [if_neg (by omega)]
    unfold runGraph
    rw [hseed]
    simp [hrun]

theorem error_propagation_amended_witness :
    binaryOp []
      = Except.error (ShapeErr.err "Expected two or three inputs shapes of this operation.") ∧
    mm [] = Except.error (ShapeErr.err "Expected two inputs shapes of this operation.") ∧
    transpose [] = Except.error (ShapeErr.err "Expect 3 inputs, get 0") ∧
    slice [] = Except.error (ShapeErr.err "Expected 5 inputs, got 0.") ∧
    reshape [] = Except.error (ShapeErr.err "Expected two inputs shapes, got 0.") ∧
    constantChunk [] 2 0 = Except.error (ShapeErr.err "Expected one input, got 0.") ∧
    chunk [] = Except.error (ShapeErr.err "Expected one input, got 0.") ∧
    shapeOnNode [] (OpKind.other "foo") [] []
      = Except.error (ShapeErr.err "Node's operator foo is not supported") ∧
    runNodes [] [GNode.op (OpKind.other "foo") [] []]
      = Except.error (ShapeErr.err "Node's operator foo is not supported") ∧
    run ⟨[0], [0], [GNode.op (OpKind.other "foo") [] []]⟩ [IValue.tensor [2]]
      = Except.error (ShapeErr.err "Node's operator foo is not supported") := by
  obtain ⟨h1, h2, h3, h4, h5, h6, h7, h8, h9, h10⟩ := error_propagation_amended
  refine ⟨(h1 [] (by decide) (by decide)).trans (by decide),
    (h2 [] (by decide)).trans (by decide),
    (h3 [] (by decide)).trans (by decide),
    (h4 [] (by decide)).trans (by decide),
    (h5 [] (by decide)).trans (by decide),
    (h6 [] 2 0 (by decide)).trans (by decide),
    (h7 [] (by decide)).trans (by decide),
    h8 [] [] [] (OpKind.other "foo") [] _ rfl rfl,
    h9 [] [] [] [] (GNode.op (OpKind.other "foo") [] []) _ rfl rfl,
    h10 ⟨[0], [0], [GNode.op (OpKind.other "foo") [] []]⟩ [IValue.tensor [2]]
      [(0, mkT [2])] _ (by decide) rfl rfl⟩

end glow
